import Mathlib

/-!
# Verification of the senechal incremental aggregation engine

Shallow embedding of the ETL core of the repository (src/app/etl/):
the calendar/period arithmetic of `identify_affected_periods`, the
dirty-period upsert of `mark_periods_for_update` / `mark_for_update`,
the orchestration loop `HealthETL.process_pending_updates`, the Withings
incremental cursor (`get_last_processed_uid` / `set_last_processed_uid` /
`process_new_measurements`), the Withings raw aggregation
(`WithingsETL.process_period`), and the Garmin vendor-summary translation
(`GarminETL._get_summary_metrics`) and raw heart aggregation
(`GarminETL._get_heart_metrics`).
-/

set_option autoImplicit false

namespace Senechal

/-! ## Python `datetime` model

The ETL works on `datetime.datetime` values.  We model the proleptic
Gregorian calendar exactly as CPython's `datetime` module computes it:
`toOrdinal` is `datetime._ymd2ord` and `fromOrdinal` is `datetime._ord2ymd`
(the 400-year-cycle algorithm), and timedelta arithmetic goes through the
linear microsecond timeline.  Years are unbounded `Nat`s (CPython caps the
year at 9999; the cap is a representation limit, not part of the
arithmetic). -/

def usPerSecond : Nat := 1000000

def usPerMinute : Nat := 60 * usPerSecond

def usPerHour : Nat := 60 * usPerMinute

def usPerDay : Nat := 24 * usPerHour

/-- CPython `datetime._is_leap`. -/
def isLeap (y : Nat) : Bool := (y % 4 == 0 && y % 100 != 0) || y % 400 == 0

/-- CPython `_DAYS_IN_MONTH` (with the February leap adjustment applied). -/
def daysInMonth (leap : Bool) (m : Nat) : Nat :=
  match m with
  | 1 => 31 | 2 => if leap then 29 else 28 | 3 => 31 | 4 => 30 | 5 => 31
  | 6 => 30 | 7 => 31 | 8 => 31 | 9 => 30 | 10 => 31 | 11 => 30 | 12 => 31
  | _ => 0

/-- CPython `_DAYS_BEFORE_MONTH` (with the leap adjustment for months
after February applied). -/
def daysBeforeMonth (leap : Bool) (m : Nat) : Nat :=
  let adj := if leap && m > 2 then 1 else 0
  (match m with
   | 1 => 0 | 2 => 31 | 3 => 59 | 4 => 90 | 5 => 120 | 6 => 151
   | 7 => 181 | 8 => 212 | 9 => 243 | 10 => 273 | 11 => 304 | 12 => 334
   | _ => 365) + adj

/-- CPython `datetime._days_before_year`. -/
def daysBeforeYear (y : Nat) : Nat :=
  365 * (y - 1) + (y - 1) / 4 + (y - 1) / 400 - (y - 1) / 100

/-- CPython `date.toordinal` (`_ymd2ord`): 0001-01-01 is ordinal 1. -/
def toOrdinal (y m d : Nat) : Nat :=
  daysBeforeYear y + daysBeforeMonth (isLeap y) m + d

/-- CPython `datetime._ord2ymd`: ordinal to (year, month, day) via the
400/100/4/1-year cycle decomposition. -/
def fromOrdinal (ordinal : Nat) : Nat × Nat × Nat :=
  let n0 := ordinal - 1
  let n400 := n0 / 146097
  let n1r := n0 % 146097
  let n100 := n1r / 36524
  let n2r := n1r % 36524
  let n4 := n2r / 1461
  let n3r := n2r % 1461
  let n1 := n3r / 365
  let n := n3r % 365
  let year := n400 * 400 + 1 + n100 * 100 + n4 * 4 + n1
  if n1 == 4 || n100 == 4 then
    (year - 1, 12, 31)
  else
    let leap := n1 == 3 && (n4 != 24 || n100 == 3)
    let month0 := (n + 50) / 32
    let preceding0 := daysBeforeMonth leap month0
    let month := if n < preceding0 then month0 - 1 else month0
    let preceding :=
      if n < preceding0 then preceding0 - daysInMonth leap month else preceding0
    (year, month, n - preceding + 1)

/-- A CPython `datetime.datetime` value (naive, microsecond resolution). -/
structure PyDateTime where
  year : Nat
  month : Nat
  day : Nat
  hour : Nat
  minute : Nat
  second : Nat
  microsecond : Nat
deriving DecidableEq, Repr

namespace PyDateTime

/-- Position on the linear microsecond timeline (microseconds since
0001-01-01T00:00:00). -/
def toMicros (t : PyDateTime) : Nat :=
  (toOrdinal t.year t.month t.day - 1) * usPerDay
    + t.hour * usPerHour + t.minute * usPerMinute
    + t.second * usPerSecond + t.microsecond

/-- Inverse of `toMicros`: rebuild the calendar fields from the linear
timeline, as CPython does after timedelta arithmetic. -/
def ofMicros (n : Nat) : PyDateTime :=
  let ymd := fromOrdinal (n / usPerDay + 1)
  let tod := n % usPerDay
  { year := ymd.1, month := ymd.2.1, day := ymd.2.2
    hour := tod / usPerHour
    minute := tod % usPerHour / usPerMinute
    second := tod % usPerMinute / usPerSecond
    microsecond := tod % usPerSecond }

/-- `t + timedelta(microseconds=k)`. -/
def addMicros (t : PyDateTime) (k : Nat) : PyDateTime :=
  ofMicros (t.toMicros + k)

/-- `t - timedelta(microseconds=k)` (never used below the epoch here). -/
def subMicros (t : PyDateTime) (k : Nat) : PyDateTime :=
  ofMicros (t.toMicros - k)

/-- CPython `date.weekday()`: Monday is 0.  0001-01-01 is a Monday. -/
def weekday (t : PyDateTime) : Nat :=
  (toOrdinal t.year t.month t.day - 1) % 7

/-- `t.replace(hour=0, minute=0, second=0, microsecond=0)`. -/
def atMidnight (t : PyDateTime) : PyDateTime :=
  { t with hour := 0, minute := 0, second := 0, microsecond := 0 }

end PyDateTime

/-- Convenience constructor for a date at midnight. -/
def mkDate (y m d : Nat) : PyDateTime := ⟨y, m, d, 0, 0, 0, 0⟩

/-! ## Period discovery

`WithingsETL.identify_affected_periods` (src/app/etl/withings.py:79-113) and
`GarminETL.identify_affected_periods` (src/app/etl/garmin.py:69-107) are
line-for-line identical.  For one date they produce four
`(period_type, period_start, period_end)` tuples; over a list of dates the
Python code accumulates them into a `set` (the later dirty-marking upsert is
idempotent, so we keep the list with possible duplicates). -/

open PyDateTime in
/-- The four period tuples `identify_affected_periods` adds for one `date`.
Note that the month and year branches build `period_end` with
`date.replace(...)`, which keeps `date`'s time of day, before subtracting
one microsecond; only the day and week branches zero the time first. -/
def affectedPeriodsOf (date : PyDateTime) : List (String × PyDateTime × PyDateTime) :=
  let day_start := date.atMidnight
  let day_end := (day_start.addMicros usPerDay).subMicros 1
  let week_start := (date.subMicros (date.weekday * usPerDay)).atMidnight
  let week_end := (week_start.addMicros (7 * usPerDay)).subMicros 1
  let month_start := { date with day := 1, hour := 0, minute := 0, second := 0, microsecond := 0 }
  let month_end0 :=
    if month_start.month == 12 then
      { date with year := date.year + 1, month := 1, day := 1 }
    else
      { date with month := month_start.month + 1, day := 1 }
  let month_end := month_end0.subMicros 1
  let year_start := { date with month := 1, day := 1, hour := 0, minute := 0, second := 0, microsecond := 0 }
  let year_end := ({ date with year := date.year + 1, month := 1, day := 1 } : PyDateTime).subMicros 1
  [("day", day_start, day_end), ("week", week_start, week_end),
   ("month", month_start, month_end), ("year", year_start, year_end)]

/-- `identify_affected_periods` over a list of measurement dates. -/
def identifyAffectedPeriods (dates : List PyDateTime) : List (String × PyDateTime × PyDateTime) :=
  (dates.map affectedPeriodsOf).flatten

/-! ## SQLite values -/

/-- A dynamically typed SQLite cell as the Python layer sees it. -/
inductive SqlVal where
  | null
  | int (i : Int)
  | real (q : ℚ)
  | text (s : String)
deriving DecidableEq, Repr

/-- Python truthiness (`if value:`) of a cell: `None`, `0`, `0.0` and `""`
are falsy. -/
def SqlVal.truthy : SqlVal → Bool
  | .null => false
  | .int i => i != 0
  | .real q => q != 0
  | .text s => s != ""

/-! ## Canonical store (senechal.db)

Schema from the spec's §6 external-interface contract (the repository's
schema.sql is not under src/):
`source_updates(source, period_type, period_start, period_end,
raw_data_updated, needs_update)` with primary key
(source, period_type, period_start) plus a `summary_updated` timestamp,
`summaries(period_type, period_start, period_end, metric_id, avg_value,
min_value, max_value, sample_count, last_updated)` with primary key
(period_type, period_start, metric_id), and
`sync_metadata(source, key, value, updated_at)`.
Wall-clock `CURRENT_TIMESTAMP` values are abstract `Nat` ticks. -/

structure SourceUpdateRow where
  source : String
  period_type : String
  period_start : PyDateTime
  period_end : PyDateTime
  raw_data_updated : Option Nat
  needs_update : Bool
  summary_updated : Option Nat
deriving DecidableEq, Repr

/-- The (source, period_type, period_start) primary key test. -/
def sameUpdateKey (src ptype : String) (pstart : PyDateTime) (r : SourceUpdateRow) : Bool :=
  r.source == src && r.period_type == ptype && r.period_start == pstart

structure SummaryRow where
  period_type : String
  period_start : PyDateTime
  period_end : PyDateTime
  metric_id : String
  avg_value : SqlVal
  min_value : SqlVal
  max_value : SqlVal
  sample_count : Int
  last_updated : Nat
deriving DecidableEq, Repr

/-- The (period_type, period_start, metric_id) primary key test. -/
def sameSummaryKey (ptype : String) (pstart : PyDateTime) (mid : String) (r : SummaryRow) : Bool :=
  r.period_type == ptype && r.period_start == pstart && r.metric_id == mid

structure SenechalDB where
  source_updates : List SourceUpdateRow
  summaries : List SummaryRow
  /-- the `sync_metadata` value for ('withings', 'last_uid'); the Python
  layer stores `str(uid)` and reads it back with `int(...)`, a lossless
  round trip, so we keep the numeric value. -/
  sync_last_uid : Option Nat
deriving DecidableEq, Repr

def emptyDB : SenechalDB := ⟨[], [], none⟩

/-- The `INSERT ... ON CONFLICT (source, period_type, period_start) DO
UPDATE SET raw_data_updated = CURRENT_TIMESTAMP, needs_update = 1` statement
shared by `WithingsETL.mark_periods_for_update` (withings.py:127-135) and
`GarminETL.mark_periods_for_update` (garmin.py:216-227). -/
def upsertSourceUpdate (src ptype : String) (pstart pend : PyDateTime) (now : Nat)
    (tbl : List SourceUpdateRow) : List SourceUpdateRow :=
  if tbl.any (sameUpdateKey src ptype pstart) then
    tbl.map fun r =>
      if sameUpdateKey src ptype pstart r then
        { r with raw_data_updated := some now, needs_update := true }
      else r
  else
    tbl ++ [⟨src, ptype, pstart, pend, some now, true, none⟩]

/-- The variant in `run.py`'s `mark_for_update` (run.py:43-51): the caller
supplies an optional `raw_updated` timestamp and the conflict branch uses
`COALESCE(?, raw_data_updated)`. -/
def upsertSourceUpdateCoalesce (src ptype : String) (pstart pend : PyDateTime)
    (raw_updated : Option Nat) (tbl : List SourceUpdateRow) : List SourceUpdateRow :=
  if tbl.any (sameUpdateKey src ptype pstart) then
    tbl.map fun r =>
      if sameUpdateKey src ptype pstart r then
        { r with raw_data_updated := (raw_updated <|> r.raw_data_updated),
                 needs_update := true }
      else r
  else
    tbl ++ [⟨src, ptype, pstart, pend, raw_updated, true, none⟩]

/-- `mark_periods_for_update(affected_periods, dry_run)`: in a dry run the
function only logs; otherwise it upserts every period tuple and commits. -/
def markPeriodsForUpdate (src : String) (periods : List (String × PyDateTime × PyDateTime))
    (now : Nat) (dry_run : Bool) (db : SenechalDB) : SenechalDB :=
  if dry_run then db
  else
    let tbl := periods.foldl (fun tbl p => upsertSourceUpdate src p.1 p.2.1 p.2.2 now tbl)
      db.source_updates
    { db with source_updates := tbl }

/-- The `INSERT INTO summaries ... ON CONFLICT (period_type, period_start,
metric_id) DO UPDATE SET avg_value, min_value, max_value, sample_count,
last_updated` statement shared by `WithingsETL.process_period`
(withings.py:222-243) and `GarminETL._save_metrics` (garmin.py:613-637).
The conflict branch does not touch the stored `period_end`. -/
def upsertSummary (ptype : String) (pstart pend : PyDateTime) (mid : String)
    (avg mn mx : SqlVal) (cnt : Int) (now : Nat)
    (tbl : List SummaryRow) : List SummaryRow :=
  if tbl.any (sameSummaryKey ptype pstart mid) then
    tbl.map fun r =>
      if sameSummaryKey ptype pstart mid r then
        { r with avg_value := avg, min_value := mn, max_value := mx,
                 sample_count := cnt, last_updated := now }
      else r
  else
    tbl ++ [⟨ptype, pstart, pend, mid, avg, mn, mx, cnt, now⟩]

/-! ## Orchestration loop (`HealthETL.process_pending_updates`, base.py:21-72)

The loop fetches the source's pending rows, and for each row runs
`process_period` and the mark-clean `UPDATE` inside one try block, commits
on success, and on any exception rolls the open transaction back, logs, and
continues with the next row.  A concrete adapter either applies a batch of
summary upserts and returns (then `process_period`'s own `commit` and the
mark-clean commit run), or raises after some prefix of its upserts has been
applied to the open transaction.  We model the adapter's behaviour on one
period by that observable outcome. -/

/-- Modelled from the spec: the `v_pending_updates` view (its defining SQL
lives in schema.sql, which is not under src/).  Per spec §4.2, `listDirty`
returns the source's rows with `needs_update = true` ordered by
`period_start` ascending. -/
def pendingUpdates (src : String) (db : SenechalDB) : List SourceUpdateRow :=
  ((db.source_updates.filter fun r => r.source == src && r.needs_update).insertionSort
    fun a b => a.period_start.toMicros ≤ b.period_start.toMicros)

/-- One summary upsert issued by an adapter for the period being
processed. -/
structure SummaryWrite where
  metric_id : String
  avg : SqlVal
  mn : SqlVal
  mx : SqlVal
  cnt : Int
deriving DecidableEq, Repr

/-- Apply a batch of summary upserts for period `p` (all keyed by the
period's type and start, as both `WithingsETL.process_period` and
`GarminETL._save_metrics` do). -/
def applyWrites (p : SourceUpdateRow) (ws : List SummaryWrite) (now : Nat)
    (tbl : List SummaryRow) : List SummaryRow :=
  ws.foldl (fun tbl w =>
    upsertSummary p.period_type p.period_start p.period_end w.metric_id
      w.avg w.mn w.mx w.cnt now tbl) tbl

/-- The `UPDATE source_updates SET needs_update = 0, summary_updated =
CURRENT_TIMESTAMP WHERE source = ? AND period_type = ? AND period_start = ?`
statement (base.py:51-62). -/
def markProcessed (src : String) (p : SourceUpdateRow) (now : Nat)
    (tbl : List SourceUpdateRow) : List SourceUpdateRow :=
  tbl.map fun r =>
    if sameUpdateKey src p.period_type p.period_start r then
      { r with needs_update := false, summary_updated := some now }
    else r

/-- The observable behaviour of `process_period` on one dirty period:
either it applies its summary upserts and returns normally, or it raises
after a prefix of them has been applied to the open transaction.  The
`failure` case covers every exception raised inside the loop's try block
before the writes are committed: raw-store I/O errors, a write failure
mid-batch, and a failing commit. -/
inductive PeriodOutcome where
  | success (writes : List SummaryWrite)
  | failure (partialWrites : List SummaryWrite)
deriving DecidableEq, Repr

def PeriodOutcome.isSuccess : PeriodOutcome → Bool
  | .success _ => true
  | .failure _ => false

/-- An open SQLite connection: the durable committed state plus the state
visible inside the current transaction.  `commit` publishes `current`;
`rollback` restores it from `committed`. -/
structure Conn where
  committed : SenechalDB
  current : SenechalDB
deriving DecidableEq, Repr

/-- One iteration of the loop body (base.py:36-70) on period `p`. -/
def processOne (src : String) (now : Nat) (c : Conn) (p : SourceUpdateRow)
    (outcome : PeriodOutcome) : Conn :=
  match outcome with
  | .success ws =>
      -- process_period applies its upserts and issues its own commit ...
      let s1 := { c.current with summaries := applyWrites p ws now c.current.summaries }
      -- ... then the loop marks the period processed and commits again.
      let s2 := { s1 with source_updates := markProcessed src p now s1.source_updates }
      ⟨s2, s2⟩
  | .failure ws =>
      -- the partial upserts reach only the open transaction; the except
      -- branch rolls the transaction back and the loop continues.
      let s1 := { c.current with summaries := applyWrites p ws now c.current.summaries }
      let _uncommitted := s1
      ⟨c.committed, c.committed⟩

/-- The loop over a list of pending periods, `outcome` giving the adapter's
behaviour on each. -/
def runPending (src : String) (outcome : SourceUpdateRow → PeriodOutcome) (now : Nat)
    (pending : List SourceUpdateRow) (c : Conn) : Conn :=
  pending.foldl (fun c p => processOne src now c p (outcome p)) c

/-- `process_pending_updates()`: fetch the source's pending rows, run the
loop, return the durable state after the final close. -/
def processPendingUpdates (src : String) (outcome : SourceUpdateRow → PeriodOutcome)
    (now : Nat) (db : SenechalDB) : SenechalDB :=
  (runPending src outcome now (pendingUpdates src db) ⟨db, db⟩).committed

/-- The effective durable transition of one loop iteration: a failed period
leaves the database unchanged. -/
def effectiveStep (src : String) (now : Nat) (db : SenechalDB) (p : SourceUpdateRow)
    (outcome : PeriodOutcome) : SenechalDB :=
  match outcome with
  | .success ws =>
      let s1 := { db with summaries := applyWrites p ws now db.summaries }
      { s1 with source_updates := markProcessed src p now s1.source_updates }
  | .failure _ => db

/-- Folding the effective transitions over the pending list. -/
def runEffective (src : String) (outcome : SourceUpdateRow → PeriodOutcome) (now : Nat)
    (pending : List SourceUpdateRow) (db : SenechalDB) : SenechalDB :=
  pending.foldl (fun db p => effectiveStep src now db p (outcome p)) db

/-! ## Withings adapter (withings.py) -/

/-- `WITHINGS_METRIC_MAP` (withings.py:11-24): Withings measurement type
to canonical metric id. -/
def withingsMetricMap : Int → Option String := fun t =>
  match t with
  | 1 => some "weight"
  | 4 => some "height"
  | 5 => some "fat_free_mass"
  | 6 => some "fat_ratio"
  | 8 => some "fat_mass"
  | 76 => some "muscle_mass"
  | 77 => some "hydration"
  | 88 => some "bone_mass"
  | 170 => some "visceral_fat"
  | 9 => some "bp_diastolic"
  | 10 => some "bp_systolic"
  | 11 => some "hr"
  | _ => none

/-- The raw `date` column of a Withings measurement as the Python layer
receives it: usually an ISO text, occasionally an already-converted
datetime (withings.py:162-167 handles both). -/
inductive WDate where
  | text (s : String)
  | dt (d : PyDateTime)
deriving DecidableEq, Repr

/-- A row of the Withings `measurements` table (the columns the ETL
reads). -/
structure WMeasurement where
  withings_id : Nat
  date : WDate
  type : Int
  value : ℚ
deriving DecidableEq, Repr

/-- Digit-string to number; `none` on empty or non-digit input. -/
def digitsVal? (cs : List Char) : Option Nat :=
  if cs ≠ [] ∧ cs.all Char.isDigit then
    some (cs.foldl (fun a c => a * 10 + (c.toNat - 48)) 0)
  else none

/-- `datetime.fromisoformat` on the shapes this pipeline produces:
`YYYY-MM-DD` or `YYYY-MM-DD<sep>HH:MM:SS` with any one-character
separator; anything else (and any out-of-range field) raises `ValueError`
in Python and is `none` here. -/
def fromisoformat (str : String) : Option PyDateTime :=
  match str.toList with
  | y1 :: y2 :: y3 :: y4 :: '-' :: m1 :: m2 :: '-' :: d1 :: d2 :: rest => do
      let y ← digitsVal? [y1, y2, y3, y4]
      let mo ← digitsVal? [m1, m2]
      let d ← digitsVal? [d1, d2]
      let tod ← match rest with
        | [] => some (0, 0, 0)
        | [_sep, h1, h2, ':', mi1, mi2, ':', s1, s2] => do
            let hh ← digitsVal? [h1, h2]
            let mm ← digitsVal? [mi1, mi2]
            let ss ← digitsVal? [s1, s2]
            pure (hh, mm, ss)
        | _ => none
      if 1 ≤ y ∧ 1 ≤ mo ∧ mo ≤ 12 ∧ 1 ≤ d ∧ d ≤ daysInMonth (isLeap y) mo
          ∧ tod.1 < 24 ∧ tod.2.1 < 60 ∧ tod.2.2 < 60 then
        some ⟨y, mo, d, tod.1, tod.2.1, tod.2.2, 0⟩
      else none
  | _ => none

/-- The per-measurement date handling of `process_new_measurements`
(withings.py:160-169): a text date goes through `fromisoformat`, a
datetime is used as is; a parse failure is logged and the measurement is
dropped from the date list. -/
def parseMeasurementDate : WDate → Option PyDateTime
  | .text s => fromisoformat s
  | .dt d => some d

/-- `get_last_processed_uid()` (withings.py:30-43): the stored value, or 0
if the source has never run. -/
def getLastProcessedUid (db : SenechalDB) : Nat :=
  db.sync_last_uid.getD 0

/-- `set_last_processed_uid(uid, dry_run)` (withings.py:45-60): a dry run
only logs; otherwise `INSERT OR REPLACE` of the single cursor row. -/
def setLastProcessedUid (uid : Nat) (dry_run : Bool) (db : SenechalDB) : SenechalDB :=
  if dry_run then db else { db with sync_last_uid := some uid }

/-- `get_new_measurements(last_uid)` (withings.py:62-77): all measurements
with `withings_id > last_uid`, ordered by `withings_id`. -/
def getNewMeasurements (raw : List WMeasurement) (last_uid : Nat) : List WMeasurement :=
  ((raw.filter fun m => last_uid < m.withings_id).insertionSort
    fun a b => a.withings_id ≤ b.withings_id)

/-- `max(m['withings_id'] for m in new_measurements)` (withings.py:156). -/
def maxUid (ms : List WMeasurement) : Nat :=
  (ms.map (·.withings_id)).foldl max 0

/-- avg/min/max/count of a nonempty value group (a SQL `GROUP BY` group
always has at least one row; the empty case never occurs). -/
def aggValues : List ℚ → ℚ × ℚ × ℚ × Nat
  | [] => (0, 0, 0, 0)
  | v :: rest =>
      (((v :: rest).sum) / ((v :: rest).length : ℚ),
       rest.foldl min v, rest.foldl max v, rest.length + 1)

/-- The `WHERE date >= ? AND date < ?` filter of
`WithingsETL.process_period` (withings.py:200-210).  SQLite compares the
stored date text with the ISO rendering of the bound datetimes, which on
the well-formed dates this store holds is chronological order; a date that
does not parse is treated as outside every period. -/
def wdateInRange (d : WDate) (s e : PyDateTime) : Bool :=
  match parseMeasurementDate d with
  | some t => s.toMicros ≤ t.toMicros && t.toMicros < e.toMicros
  | none => false

/-- `WithingsETL.process_period` (withings.py:188-246): aggregate the
period's measurements per type (`GROUP BY type`), skip types missing from
the metric map, upsert one summary row per mapped type, commit. -/
def processPeriodWithings (raw : List WMeasurement) (ptype : String)
    (s e : PyDateTime) (now : Nat) (db : SenechalDB) : SenechalDB :=
  let inRange := raw.filter fun m => wdateInRange m.date s e
  let types := (inRange.map (·.type)).dedup
  let summ := types.foldl (fun tbl t =>
    match withingsMetricMap t with
    | none => tbl
    | some mid =>
        let a := aggValues ((inRange.filter fun m => m.type == t).map (·.value))
        upsertSummary ptype s e mid (.real a.1) (.real a.2.1) (.real a.2.2.1)
          (a.2.2.2 : Int) now tbl) db.summaries
  { db with summaries := summ }

/-- `process_new_measurements(dry_run)` (withings.py:141-186).  The
behaviour of the downstream per-period recomputation inside
`process_pending_updates` is abstracted by `outcome`, as in
`processPendingUpdates`. -/
def processNewMeasurements (raw : List WMeasurement)
    (outcome : SourceUpdateRow → PeriodOutcome) (now : Nat) (dry_run : Bool)
    (db : SenechalDB) : SenechalDB :=
  let last := getLastProcessedUid db
  let newMs := getNewMeasurements raw last
  if newMs.isEmpty then db
  else
    let highest := maxUid newMs
    let dates := newMs.filterMap fun m => parseMeasurementDate m.date
    let affected := identifyAffectedPeriods dates
    let db1 := markPeriodsForUpdate "withings" affected now dry_run db
    let db2 := if dry_run then db1 else processPendingUpdates "withings" outcome now db1
    setLastProcessedUid highest dry_run db2

/-! ## Garmin adapter (garmin.py) -/

/-- `GARMIN_METRIC_MAP` (garmin.py:16-53): vendor summary column to
canonical metric id. -/
def garminMetricMap : String → Option String := fun c =>
  match c with
  | "hr_avg" => some "hr"
  | "hr_min" => some "hr_min"
  | "hr_max" => some "hr_max"
  | "rhr_avg" => some "rhr"
  | "rhr_min" => some "rhr_min"
  | "rhr_max" => some "rhr_max"
  | "inactive_hr_avg" => some "inactive_hr"
  | "sleep_avg" => some "sleep_total"
  | "sleep_min" => some "sleep_min"
  | "sleep_max" => some "sleep_max"
  | "rem_sleep_avg" => some "sleep_rem"
  | "steps" => some "steps"
  | "steps_goal" => some "steps_goal"
  | "floors" => some "floors"
  | "floors_goal" => some "floors_goal"
  | "intensity_time" => some "intensity_total"
  | "moderate_activity_time" => some "intensity_mod"
  | "vigorous_activity_time" => some "intensity_vig"
  | "spo2_avg" => some "spo2"
  | "spo2_min" => some "spo2_min"
  | "rr_waking_avg" => some "resp_rate"
  | "rr_min" => some "resp_rate_min"
  | "rr_max" => some "resp_rate_max"
  | "stress_avg" => some "stress"
  | "calories_avg" => some "calories"
  | "calories_bmr_avg" => some "calories_bmr"
  | "calories_active_avg" => some "calories_active"
  | "calories_goal" => some "calories_goal"
  | "weight_avg" => some "weight"
  | "weight_min" => some "weight_min"
  | "weight_max" => some "weight_max"
  | _ => none

/-- Python `int(cs)` on a character sequence: surrounding whitespace
stripped, optional sign, decimal digits; anything else raises `ValueError`
(`none` here). -/
def pyIntChars? (cs0 : List Char) : Option Int :=
  let cs := ((cs0.dropWhile (· == ' ')).reverse.dropWhile (· == ' ')).reverse
  match cs with
  | '-' :: rest => (digitsVal? rest).map fun n => -(n : Int)
  | '+' :: rest => (digitsVal? rest).map fun n => (n : Int)
  | _ => (digitsVal? cs).map fun n => (n : Int)

/-- Python `s.split(sep)` for a one-character separator, on the character
list. -/
def splitOnChar (c : Char) : List Char → List (List Char)
  | [] => [[]]
  | x :: xs =>
      match splitOnChar c xs with
      | [] => [[]]
      | g :: gs => if x == c then [] :: g :: gs else (x :: g) :: gs

/-- The `hours, minutes = value.split(":")[:2]; value = int(hours) * 60 +
int(minutes)` decoding of garmin.py:336-337; `none` when either `int(...)`
raises (the error is logged and the column skipped, garmin.py:338-342). -/
def decodeTime? (s : String) : Option Int :=
  match splitOnChar ':' s.toList with
  | h :: m :: _ => do
      let a ← pyIntChars? h
      let b ← pyIntChars? m
      pure (a * 60 + b)
  | _ => none

/-- One value of the Garmin metrics dict: `{"avg": ..., "min": ...,
"max": ..., "count": ...}`; an absent `"min"`/`"max"` key reaches the
summary insert as SQL NULL (`values.get("min")`, garmin.py:633-634), so we
store it as `SqlVal.null`; `"count"` defaults to 0 (garmin.py:635). -/
structure MetricVal where
  avg : SqlVal
  mn : SqlVal
  mx : SqlVal
  cnt : Int
deriving DecidableEq, Repr

/-- A fetched vendor summary row with its column names, in `SELECT *`
order. -/
abbrev VendorRow := List (String × SqlVal)

/-- `row[column_names.index(c)]`: the value of the first column named
`c`. -/
def rowLookup (row : VendorRow) (c : String) : Option SqlVal :=
  (row.find? fun p => p.1 == c).map (·.2)

/-- `c in column_names`. -/
def hasColumn (row : VendorRow) (c : String) : Bool :=
  row.any fun p => p.1 == c

/-- Python dict assignment `metrics[k] = v` on an insertion-ordered
association list. -/
def assocUpsert (m : List (String × MetricVal)) (k : String) (v : MetricVal) :
    List (String × MetricVal) :=
  if m.any (fun p => p.1 == k) then
    m.map fun p => if p.1 == k then (k, v) else p
  else m ++ [(k, v)]

/-- Python `s.endswith(suffix)`. -/
def pyEndsWith (s suffix : String) : Bool :=
  let cs := s.toList
  let suf := suffix.toList
  suf.length ≤ cs.length && cs.drop (cs.length - suf.length) == suf

/-- Python `s[:-k]` (for `k ≤ len(s)`): drop the last `k` characters. -/
def pyDropRight (s : String) (k : Nat) : String :=
  String.mk (s.toList.take (s.toList.length - k))

/-- The `_min`/`_max` sibling propagation of garmin.py:348-364: for an
`_avg` column, when the sibling column exists in the row and the sibling
name is itself in the metric map, its (raw, undecoded) non-NULL value
becomes the entry's min/max. -/
def addSiblings (row : VendorRow) (column : String) (entry : MetricVal) : MetricVal :=
  if pyEndsWith column "_avg" then
    let base := pyDropRight column 4
    let min_col := base ++ "_min"
    let max_col := base ++ "_max"
    let e1 :=
      if hasColumn row min_col && (garminMetricMap (base ++ "_min")).isSome then
        match rowLookup row min_col with
        | some v => if v != SqlVal.null then { entry with mn := v } else entry
        | none => entry
      else entry
    if hasColumn row max_col && (garminMetricMap (base ++ "_max")).isSome then
      match rowLookup row max_col with
      | some v => if v != SqlVal.null then { e1 with mx := v } else e1
      | none => e1
    else e1
  else entry

/-- One iteration of the column loop of `GarminETL._get_summary_metrics`
(garmin.py:320-364): skip the date field, unmapped columns and NULLs;
decode `"HH:MM"` text values to minutes (skipping the column when the
decode raises); record the entry and fold in `_min`/`_max` siblings. -/
def stepColumn (row : VendorRow) (date_field : String)
    (metrics : List (String × MetricVal)) (cv : String × SqlVal) :
    List (String × MetricVal) :=
  if cv.1 == date_field then metrics
  else
    match garminMetricMap cv.1 with
    | none => metrics
    | some sm =>
        match cv.2 with
        | .null => metrics
        | .text s =>
            if s.toList.contains ':' then
              match decodeTime? s with
              | none => metrics
              | some n => assocUpsert metrics sm (addSiblings row cv.1 ⟨.int n, .null, .null, 1⟩)
            else assocUpsert metrics sm (addSiblings row cv.1 ⟨.text s, .null, .null, 1⟩)
        | v => assocUpsert metrics sm (addSiblings row cv.1 ⟨v, .null, .null, 1⟩)

/-- The row-translation core of `GarminETL._get_summary_metrics`
(garmin.py:318-364), given the fetched vendor row (the surrounding
function resolves the summary table and date field and returns an empty
dict when the table or row is missing). -/
def getSummaryMetrics (row : VendorRow) (date_field : String) :
    List (String × MetricVal) :=
  row.foldl (stepColumn row date_field) []

/-- `GarminETL._save_metrics` (garmin.py:601-642): upsert every metric of
the dict into `summaries` and commit. -/
def saveMetrics (ptype : String) (pstart pend : PyDateTime) (now : Nat)
    (metrics : List (String × MetricVal)) (db : SenechalDB) : SenechalDB :=
  let summ := metrics.foldl (fun tbl p =>
    let v := p.2
    upsertSummary ptype pstart pend p.1 v.avg v.mn v.mx v.cnt now tbl) db.summaries
  { db with summaries := summ }

/-! ### Garmin raw heart aggregation (`_get_heart_metrics`,
garmin.py:374-435)

The two aggregate queries run over the raw stores' timestamp columns; we
place those timestamps on an abstract linearly ordered timeline (`Nat`),
standing for the store's ordering of the column. -/

structure RestingHrRow where
  day : Nat
  resting_heart_rate : Option ℚ
deriving DecidableEq, Repr

structure MonitoringHrRow where
  timestamp : Nat
  heart_rate : Option ℚ
deriving DecidableEq, Repr

/-- SQL `AVG`: NULLs ignored; NULL when no non-NULL input. -/
def sqlAvg (vs : List (Option ℚ)) : Option ℚ :=
  let xs := vs.filterMap id
  if xs.isEmpty then none else some (xs.sum / (xs.length : ℚ))

/-- SQL `MIN`: NULLs ignored; NULL when no non-NULL input. -/
def sqlMin (vs : List (Option ℚ)) : Option ℚ :=
  match vs.filterMap id with
  | [] => none
  | x :: rest => some (rest.foldl min x)

/-- SQL `MAX`: NULLs ignored; NULL when no non-NULL input. -/
def sqlMax (vs : List (Option ℚ)) : Option ℚ :=
  match vs.filterMap id with
  | [] => none
  | x :: rest => some (rest.foldl max x)

/-- One fetched aggregate row `AVG(..), MIN(..), MAX(..), COUNT(*)`. -/
structure AggStats where
  avg : Option ℚ
  mn : Option ℚ
  mx : Option ℚ
  cnt : Nat
deriving DecidableEq, Repr

/-- The `resting_hr` aggregate of garmin.py:383-395 over
`day >= start AND day < end`. -/
def restingHrStats (rows : List RestingHrRow) (s e : Nat) : AggStats :=
  let inR := rows.filter fun r => s ≤ r.day && r.day < e
  ⟨sqlAvg (inR.map (·.resting_heart_rate)), sqlMin (inR.map (·.resting_heart_rate)),
   sqlMax (inR.map (·.resting_heart_rate)), inR.length⟩

/-- The `monitoring_hr` aggregate of garmin.py:406-419 over
`timestamp >= start AND timestamp < end`. -/
def monitoringHrStats (rows : List MonitoringHrRow) (s e : Nat) : AggStats :=
  let inR := rows.filter fun r => s ≤ r.timestamp && r.timestamp < e
  ⟨sqlAvg (inR.map (·.heart_rate)), sqlMin (inR.map (·.heart_rate)),
   sqlMax (inR.map (·.heart_rate)), inR.length⟩

/-- Python truthiness of a fetched aggregate cell: `None` and `0.0` are
both falsy (`if rhr_stats and rhr_stats["avg_rhr"]:`, garmin.py:397 and
421). -/
def cellTruthy : Option ℚ → Bool
  | none => false
  | some q => q != 0

/-- A fetched aggregate cell as a summary value. -/
def cellVal : Option ℚ → SqlVal
  | none => SqlVal.null
  | some q => SqlVal.real q

/-- `GarminETL._get_heart_metrics` (garmin.py:374-435): the `"rhr"` entry
is added only when the resting average is truthy, the `"hr"` entry only
when the monitoring average is truthy. -/
def getHeartMetrics (resting : List RestingHrRow) (monitoring : List MonitoringHrRow)
    (s e : Nat) : List (String × MetricVal) :=
  let rhr := restingHrStats resting s e
  let m1 :=
    if cellTruthy rhr.avg then
      [("rhr", (⟨cellVal rhr.avg, cellVal rhr.mn, cellVal rhr.mx, (rhr.cnt : Int)⟩ : MetricVal))]
    else []
  let hr := monitoringHrStats monitoring s e
  m1 ++
    (if cellTruthy hr.avg then
      [("hr", (⟨cellVal hr.avg, cellVal hr.mn, cellVal hr.mx, (hr.cnt : Int)⟩ : MetricVal))]
    else [])

/-- The summary upserts `_save_metrics` issues for a Garmin metrics dict,
as an adapter write batch for the orchestration loop. -/
def garminWritesOf (metrics : List (String × MetricVal)) : List SummaryWrite :=
  metrics.map fun p => ⟨p.1, p.2.avg, p.2.mn, p.2.mx, p.2.cnt⟩

/-- Number of `source_updates` rows with a given primary key. -/
def countKey (src ptype : String) (pstart : PyDateTime) (tbl : List SourceUpdateRow) : Nat :=
  (tbl.filter (sameUpdateKey src ptype pstart)).length

/-! ## Theorems -/

/-- **C1** — evaluation of `identify_affected_periods` at the claim's raw
sample `2024-03-15T08:00:00`.  The day and week periods match the claimed
`[2024-03-15, 2024-03-16)` and `[2024-03-11, 2024-03-18)` (the store keeps
the closed representation, exclusive end minus one microsecond), but the
month and year branches build `period_end` with `date.replace(...)`, which
keeps the sample's `08:00` time of day: the code emits month end
`2024-04-01T07:59:59.999999` and year end `2025-01-01T07:59:59.999999`
instead of the claimed `[2024-03-01, 2024-04-01)` and
`[2024-01-01, 2025-01-01)` — the claimed month and year tuples are not
produced, and month/year intervals of the same kind then overlap their
successors, so the partition property also fails. -/
theorem c1_month_year_period_end_keeps_time_of_day :
    affectedPeriodsOf ⟨2024, 3, 15, 8, 0, 0, 0⟩ =
      [("day", mkDate 2024 3 15, ⟨2024, 3, 15, 23, 59, 59, 999999⟩),
       ("week", mkDate 2024 3 11, ⟨2024, 3, 17, 23, 59, 59, 999999⟩),
       ("month", mkDate 2024 3 1, ⟨2024, 4, 1, 7, 59, 59, 999999⟩),
       ("year", mkDate 2024 1 1, ⟨2025, 1, 1, 7, 59, 59, 999999⟩)]
    ∧ ("month", mkDate 2024 3 1, (⟨2024, 3, 31, 23, 59, 59, 999999⟩ : PyDateTime)) ∉
        affectedPeriodsOf ⟨2024, 3, 15, 8, 0, 0, 0⟩
    ∧ ("year", mkDate 2024 1 1, (⟨2024, 12, 31, 23, 59, 59, 999999⟩ : PyDateTime)) ∉
        affectedPeriodsOf ⟨2024, 3, 15, 8, 0, 0, 0⟩ := by
  decide

/-- The updated fields of the dirty-marking upsert leave the primary key
untouched. -/
theorem sameUpdateKey_mark (src ptype : String) (pstart : PyDateTime)
    (r : SourceUpdateRow) (raw : Option Nat) :
    sameUpdateKey src ptype pstart { r with raw_data_updated := raw, needs_update := true } =
      sameUpdateKey src ptype pstart r := rfl

/-- `markDirty` keeps the key-row count: an existing key is updated in
place, a missing key is inserted once. -/
theorem countKey_upsertSourceUpdate (src ptype : String) (pstart pend : PyDateTime)
    (now : Nat) (tbl : List SourceUpdateRow) :
    countKey src ptype pstart (upsertSourceUpdate src ptype pstart pend now tbl) =
      max 1 (countKey src ptype pstart tbl) := by
  unfold upsertSourceUpdate countKey
  cases h : tbl.any (sameUpdateKey src ptype pstart) with
  | true =>
    simp only [h, if_true]
    have hf : ∀ r : SourceUpdateRow,
        sameUpdateKey src ptype pstart
          (if sameUpdateKey src ptype pstart r then
            { r with raw_data_updated := some now, needs_update := true }
          else r) = sameUpdateKey src ptype pstart r := by
      intro r
      by_cases hr : sameUpdateKey src ptype pstart r
      · rw [if_pos hr]
        exact sameUpdateKey_mark src ptype pstart r (some now)
      · rw [if_neg hr]
    rw [List.filter_map]
    have hcomp : (sameUpdateKey src ptype pstart ∘ fun r =>
        if sameUpdateKey src ptype pstart r then
          { r with raw_data_updated := some now, needs_update := true }
        else r) = sameUpdateKey src ptype pstart := funext hf
    rw [hcomp, List.length_map]
    rcases List.any_eq_true.mp h with ⟨r, hr, hkey⟩
    have hpos : 0 < (tbl.filter (sameUpdateKey src ptype pstart)).length := by
      have hmem : r ∈ tbl.filter (sameUpdateKey src ptype pstart) :=
        List.mem_filter.mpr ⟨hr, hkey⟩
      exact List.length_pos.mpr (List.ne_nil_of_mem hmem)
    omega
  | false =>
    have hnil : tbl.filter (sameUpdateKey src ptype pstart) = [] := by
      refine List.filter_eq_nil_iff.mpr ?_
      intro r hr hkey
      have hx : tbl.any (sameUpdateKey src ptype pstart) = true :=
        List.any_eq_true.mpr ⟨r, hr, hkey⟩
      rw [h] at hx
      exact Bool.false_ne_true hx
    simp only [h, Bool.false_eq_true, if_false, List.filter_append, hnil,
      List.length_append, List.length_nil]
    simp [sameUpdateKey]

/-- After `markDirty`, every row with the marked key is dirty. -/
theorem upsertSourceUpdate_needs_update (src ptype : String) (pstart pend : PyDateTime)
    (now : Nat) (tbl : List SourceUpdateRow) :
    ∀ r ∈ upsertSourceUpdate src ptype pstart pend now tbl,
      sameUpdateKey src ptype pstart r = true → r.needs_update = true := by
  unfold upsertSourceUpdate
  by_cases h : tbl.any (sameUpdateKey src ptype pstart)
  · simp only [h, if_true]
    intro r hr hkey
    rcases List.mem_map.mp hr with ⟨x, hx, hfx⟩
    by_cases hxk : sameUpdateKey src ptype pstart x
    · rw [if_pos hxk] at hfx
      rw [← hfx]
    · rw [if_neg hxk] at hfx
      rw [← hfx] at hkey
      exact absurd hkey (by simpa using hxk)
  · simp only [h, if_false]
    intro r hr hkey
    rcases List.mem_append.mp hr with hr1 | hr2
    · exact absurd (List.any_eq_true.mpr ⟨r, hr1, hkey⟩) h
    · rcases List.mem_singleton.mp hr2 with rfl
      rfl

/-- **C4** — `markDirty` is an upsert keyed on
(source, period_type, period_start): calling it twice for the same key
(with possibly different period ends and timestamps, and before any clean
cycle) on a table holding at most one row for that key leaves exactly one
row for the key, and that row is dirty. -/
theorem c4_markDirty_twice_one_row (src ptype : String) (pstart pend pend' : PyDateTime)
    (now now' : Nat) (tbl : List SourceUpdateRow)
    (h : countKey src ptype pstart tbl ≤ 1) :
    countKey src ptype pstart
        (upsertSourceUpdate src ptype pstart pend' now'
          (upsertSourceUpdate src ptype pstart pend now tbl)) = 1
    ∧ ∀ r ∈ upsertSourceUpdate src ptype pstart pend' now'
          (upsertSourceUpdate src ptype pstart pend now tbl),
        sameUpdateKey src ptype pstart r = true → r.needs_update = true := by
  constructor
  · rw [countKey_upsertSourceUpdate, countKey_upsertSourceUpdate]
    omega
  · exact upsertSourceUpdate_needs_update src ptype pstart pend' now' _

/-- Witness for C4 at a concrete table. -/
theorem c4_markDirty_twice_one_row_witness :
    countKey "withings" "day" (mkDate 2024 3 15) [] ≤ 1
    ∧ countKey "withings" "day" (mkDate 2024 3 15)
        (upsertSourceUpdate "withings" "day" (mkDate 2024 3 15) (mkDate 2024 3 16) 2
          (upsertSourceUpdate "withings" "day" (mkDate 2024 3 15) (mkDate 2024 3 16) 1 [])) = 1 :=
  ⟨by decide,
   (c4_markDirty_twice_one_row "withings" "day" (mkDate 2024 3 15) (mkDate 2024 3 16)
     (mkDate 2024 3 16) 1 2 [] (by decide)).1⟩

/-- **C10** — when `markDirty` finds an existing
(source, period_type, period_start) row, the whole table transition is a
pointwise map that rewrites only `raw_data_updated` and `needs_update` of
the matching rows (shown by the record updates below, which copy every
other field); in particular the stored `period_end` and `summary_updated`
of the existing row survive even though the caller passed a (possibly
different) `period_end`.  The same holds for the `COALESCE` variant in
`run.py`'s `mark_for_update`. -/
theorem c10_remark_touches_only_raw_and_needs (src ptype : String)
    (pstart pend' : PyDateTime) (now : Nat) (raw' : Option Nat)
    (tbl : List SourceUpdateRow) (r : SourceUpdateRow)
    (hr : r ∈ tbl) (hk : sameUpdateKey src ptype pstart r = true) :
    upsertSourceUpdate src ptype pstart pend' now tbl =
      tbl.map (fun x => if sameUpdateKey src ptype pstart x then
        { x with raw_data_updated := some now, needs_update := true } else x)
    ∧ upsertSourceUpdateCoalesce src ptype pstart pend' raw' tbl =
      tbl.map (fun x => if sameUpdateKey src ptype pstart x then
        { x with raw_data_updated := (raw' <|> x.raw_data_updated), needs_update := true } else x)
    ∧ { r with raw_data_updated := some now, needs_update := true } ∈
        upsertSourceUpdate src ptype pstart pend' now tbl
    ∧ ({ r with raw_data_updated := some now, needs_update := true } : SourceUpdateRow).period_end
        = r.period_end
    ∧ ({ r with raw_data_updated := some now, needs_update := true } : SourceUpdateRow).summary_updated
        = r.summary_updated := by
  have hany : tbl.any (sameUpdateKey src ptype pstart) = true :=
    List.any_eq_true.mpr ⟨r, hr, hk⟩
  have heq1 : upsertSourceUpdate src ptype pstart pend' now tbl =
      tbl.map (fun x => if sameUpdateKey src ptype pstart x then
        { x with raw_data_updated := some now, needs_update := true } else x) := by
    simp [upsertSourceUpdate, hany]
  refine ⟨heq1, by simp [upsertSourceUpdateCoalesce, hany], ?_, rfl, rfl⟩
  rw [heq1]
  exact List.mem_map.mpr ⟨r, hr, by rw [if_pos hk]⟩

/-- Witness for C10: a concrete re-marking with a different period end
keeps the stored period end. -/
theorem c10_remark_touches_only_raw_and_needs_witness :
    ({ source := "garmin", period_type := "day", period_start := mkDate 2024 3 1,
       period_end := mkDate 2024 3 2, raw_data_updated := some 7, needs_update := true,
       summary_updated := some 9 } : SourceUpdateRow) ∈
      upsertSourceUpdate "garmin" "day" (mkDate 2024 3 1) (mkDate 2024 4 1) 7
        [{ source := "garmin", period_type := "day", period_start := mkDate 2024 3 1,
           period_end := mkDate 2024 3 2, raw_data_updated := some 3, needs_update := false,
           summary_updated := some 9 }] :=
  (c10_remark_touches_only_raw_and_needs "garmin" "day" (mkDate 2024 3 1) (mkDate 2024 4 1)
    7 (some 1)
    [{ source := "garmin", period_type := "day", period_start := mkDate 2024 3 1,
       period_end := mkDate 2024 3 2, raw_data_updated := some 3, needs_update := false,
       summary_updated := some 9 }]
    { source := "garmin", period_type := "day", period_start := mkDate 2024 3 1,
      period_end := mkDate 2024 3 2, raw_data_updated := some 3, needs_update := false,
      summary_updated := some 9 }
    (by decide) (by decide)).2.2.1

/-! ### Orchestration-loop lemmas -/

/-- A loop iteration started on a fully committed connection ends fully
committed: the success branch commits, the failure branch rolls back. -/
theorem processOne_synced (src : String) (now : Nat) (db : SenechalDB)
    (p : SourceUpdateRow) (oc : PeriodOutcome) :
    processOne src now ⟨db, db⟩ p oc =
      ⟨effectiveStep src now db p oc, effectiveStep src now db p oc⟩ := by
  cases oc <;> rfl

/-- The loop's durable result is the fold of the effective per-period
transitions: failed periods contribute nothing durable. -/
theorem runPending_eq_runEffective (src : String) (o : SourceUpdateRow → PeriodOutcome)
    (now : Nat) :
    ∀ (pending : List SourceUpdateRow) (db : SenechalDB),
      runPending src o now pending ⟨db, db⟩ =
        ⟨runEffective src o now pending db, runEffective src o now pending db⟩ := by
  intro pending
  induction pending with
  | nil => intro db; rfl
  | cons p rest ih =>
      intro db
      show runPending src o now rest (processOne src now ⟨db, db⟩ p (o p)) = _
      rw [processOne_synced, ih]
      rfl

/-- Failed periods can be erased from the run list without changing the
durable result: the loop proceeds past them. -/
theorem runEffective_filter_success (src : String) (o : SourceUpdateRow → PeriodOutcome)
    (now : Nat) :
    ∀ (pending : List SourceUpdateRow) (db : SenechalDB),
      runEffective src o now pending db =
        runEffective src o now (pending.filter fun q => (o q).isSuccess) db := by
  intro pending
  induction pending with
  | nil => intro db; rfl
  | cons q rest ih =>
      intro db
      rw [List.filter_cons]
      cases hq : o q with
      | success ws =>
          simp only [hq, PeriodOutcome.isSuccess, if_true]
          show runEffective src o now rest (effectiveStep src now db q (o q)) =
            runEffective src o now (rest.filter fun q2 => (o q2).isSuccess)
              (effectiveStep src now db q (o q))
          exact ih _
      | failure ws =>
          simp only [hq, PeriodOutcome.isSuccess, Bool.false_eq_true, if_false]
          show runEffective src o now rest (effectiveStep src now db q (o q)) =
            runEffective src o now (rest.filter fun q2 => (o q2).isSuccess) db
          rw [hq]
          exact ih db

/-- The summary upsert leaves the (period_type, period_start) key of every
row unchanged. -/
theorem sameSummaryKey_update (ptype : String) (pstart : PyDateTime) (mid : String)
    (r : SummaryRow) (avg mn mx : SqlVal) (cnt : Int) (now : Nat) :
    sameSummaryKey ptype pstart mid
      { r with avg_value := avg, min_value := mn, max_value := mx,
               sample_count := cnt, last_updated := now } =
      sameSummaryKey ptype pstart mid r := rfl

/-- A summary upsert for a different period leaves another period's slice
of the table untouched. -/
theorem filter_upsertSummary_ne (qt : String) (qs qe : PyDateTime) (mid : String)
    (avg mn mx : SqlVal) (cnt : Int) (now : Nat) (tbl : List SummaryRow)
    (pt : String) (ps : PyDateTime) (hne : qt ≠ pt ∨ qs ≠ ps) :
    (upsertSummary qt qs qe mid avg mn mx cnt now tbl).filter
        (fun r2 => r2.period_type == pt && r2.period_start == ps) =
      tbl.filter (fun r2 => r2.period_type == pt && r2.period_start == ps) := by
  unfold upsertSummary
  cases h : tbl.any (sameSummaryKey qt qs mid) with
  | true =>
      simp only [h, if_true]
      rw [List.filter_map]
      have hcomp : ((fun r2 : SummaryRow => r2.period_type == pt && r2.period_start == ps) ∘
          fun r => if sameSummaryKey qt qs mid r then
            { r with avg_value := avg, min_value := mn, max_value := mx,
                     sample_count := cnt, last_updated := now }
          else r) = fun r2 : SummaryRow => r2.period_type == pt && r2.period_start == ps := by
        funext r
        by_cases hr : sameSummaryKey qt qs mid r
        · simp only [Function.comp_apply, if_pos hr]
        · simp only [Function.comp_apply, if_neg hr]
      rw [hcomp]
      refine List.map_congr_left ?_ |>.trans (List.map_id _)
      intro r hrmem
      have hr2 := (List.mem_filter.mp hrmem).2
      have hpt : r.period_type = pt := by
        have := (Bool.and_eq_true _ _).mp hr2
        exact beq_iff_eq.mp this.1
      have hps : r.period_start = ps := by
        have := (Bool.and_eq_true _ _).mp hr2
        exact beq_iff_eq.mp this.2
      have hkey : sameSummaryKey qt qs mid r = false := by
        unfold sameSummaryKey
        rcases hne with hne | hne
        · have : (r.period_type == qt) = false := by
            rw [hpt]
            exact beq_eq_false_iff_ne.mpr fun hh => hne hh.symm
          simp [this]
        · have : (r.period_start == qs) = false := by
            rw [hps]
            exact beq_eq_false_iff_ne.mpr fun hh => hne hh.symm
          simp [this]
      rw [if_neg (by simp [hkey])]
      rfl
  | false =>
      simp only [h, Bool.false_eq_true, if_false, List.filter_append]
      have hnew : (fun r2 : SummaryRow => r2.period_type == pt && r2.period_start == ps)
          (⟨qt, qs, qe, mid, avg, mn, mx, cnt, now⟩ : SummaryRow) = false := by
        rcases hne with hne | hne
        · have : (qt == pt) = false := beq_eq_false_iff_ne.mpr hne
          simp [this]
        · have : (qs == ps) = false := beq_eq_false_iff_ne.mpr hne
          simp [this]
      simp [hnew]

/-- A whole write batch for a different period leaves another period's
slice of the table untouched. -/
theorem filter_applyWrites_ne (q : SourceUpdateRow) (now : Nat)
    (pt : String) (ps : PyDateTime) (hne : q.period_type ≠ pt ∨ q.period_start ≠ ps) :
    ∀ (ws : List SummaryWrite) (tbl : List SummaryRow),
      (applyWrites q ws now tbl).filter
          (fun r2 => r2.period_type == pt && r2.period_start == ps) =
        tbl.filter (fun r2 => r2.period_type == pt && r2.period_start == ps) := by
  intro ws
  induction ws with
  | nil => intro tbl; rfl
  | cons w rest ih =>
      intro tbl
      show (applyWrites q rest now _).filter _ = _
      rw [ih, filter_upsertSummary_ne _ _ _ _ _ _ _ _ _ _ _ _ hne]

/-- One effective loop step for a period with a different
(period_type, period_start) leaves another period's summary slice
untouched. -/
theorem filter_effectiveStep_ne (src : String) (now : Nat) (db : SenechalDB)
    (q : SourceUpdateRow) (oc : PeriodOutcome) (pt : String) (ps : PyDateTime)
    (h : oc.isSuccess = true → q.period_type ≠ pt ∨ q.period_start ≠ ps) :
    ((effectiveStep src now db q oc).summaries).filter
        (fun r2 => r2.period_type == pt && r2.period_start == ps) =
      db.summaries.filter (fun r2 => r2.period_type == pt && r2.period_start == ps) := by
  cases oc with
  | failure ws => rfl
  | success ws => exact filter_applyWrites_ne q now pt ps (h rfl) ws db.summaries

/-- Over a whole run, a period processed by no successful run-list entry
keeps its summary slice. -/
theorem filter_runEffective_ne (src : String) (o : SourceUpdateRow → PeriodOutcome)
    (now : Nat) (pt : String) (ps : PyDateTime) :
    ∀ (pending : List SourceUpdateRow) (db : SenechalDB),
      (∀ q ∈ pending, (o q).isSuccess = true → q.period_type ≠ pt ∨ q.period_start ≠ ps) →
      ((runEffective src o now pending db).summaries).filter
          (fun r2 => r2.period_type == pt && r2.period_start == ps) =
        db.summaries.filter (fun r2 => r2.period_type == pt && r2.period_start == ps) := by
  intro pending
  induction pending with
  | nil => intro db _; rfl
  | cons q rest ih =>
      intro db hq
      show ((runEffective src o now rest (effectiveStep src now db q (o q))).summaries).filter _ = _
      rw [ih _ fun q2 hq2 => hq q2 (List.mem_cons_of_mem _ hq2),
        filter_effectiveStep_ne src now db q (o q) pt ps (hq q (List.mem_cons_self _ _))]

/-- The mark-clean update leaves rows with a different key in place,
unchanged. -/
theorem mem_markProcessed_ne (src : String) (q : SourceUpdateRow) (now : Nat)
    (tbl : List SourceUpdateRow) (r : SourceUpdateRow)
    (h : sameUpdateKey src q.period_type q.period_start r = false) (hr : r ∈ tbl) :
    r ∈ markProcessed src q now tbl := by
  unfold markProcessed
  have hfr : (if sameUpdateKey src q.period_type q.period_start r = true then
      { r with needs_update := false, summary_updated := some now } else r) = r := by
    rw [if_neg (by simp [h])]
  exact List.mem_map.mpr ⟨r, hr, hfr⟩

/-- A dirty row whose key no successful run-list entry carries survives
the whole run unchanged. -/
theorem mem_runEffective_source_updates (src : String) (o : SourceUpdateRow → PeriodOutcome)
    (now : Nat) (r : SourceUpdateRow) :
    ∀ (pending : List SourceUpdateRow) (db : SenechalDB),
      r ∈ db.source_updates →
      (∀ q ∈ pending, (o q).isSuccess = true →
        sameUpdateKey src q.period_type q.period_start r = false) →
      r ∈ (runEffective src o now pending db).source_updates := by
  intro pending
  induction pending with
  | nil => intro db hr _; exact hr
  | cons q rest ih =>
      intro db hr hq
      show r ∈ (runEffective src o now rest (effectiveStep src now db q (o q))).source_updates
      refine ih _ ?_ fun q2 hq2 => hq q2 (List.mem_cons_of_mem _ hq2)
      cases hoc : o q with
      | failure ws => exact hr
      | success ws =>
          show r ∈ markProcessed src q now db.source_updates
          exact mem_markProcessed_ne src q now _ r
            (hq q (List.mem_cons_self _ _) (by rw [hoc]; rfl)) hr

/-- Membership in the pending view implies membership in the table, the
right source, and a set dirty flag. -/
theorem mem_pendingUpdates (src : String) (db : SenechalDB) (p : SourceUpdateRow)
    (hp : p ∈ pendingUpdates src db) :
    p ∈ db.source_updates ∧ p.source = src ∧ p.needs_update = true := by
  unfold pendingUpdates at hp
  have hp2 := (List.mem_insertionSort _).mp hp
  have hmem := List.mem_filter.mp hp2
  have hpred := (Bool.and_eq_true _ _).mp hmem.2
  exact ⟨hmem.1, beq_iff_eq.mp hpred.1, hpred.2⟩

/-- **C2** (amended) — any exception raised to the orchestration loop
during adapter execution or the summary commit makes that iteration's
durable effect empty (the rollback discards the period's partial writes),
leaves the period's row present with `needs_update` still true, and the
loop proceeds: the run's durable result is exactly the run of the
successful periods; the failing period contributes nothing.  (The claim's
"in particular" list is not confirmed: see the counterexample — a
malformed encoded value is swallowed inside the Garmin adapter and the
period is still marked clean.) -/
theorem c2_exception_leaves_period_dirty (src : String)
    (outcome : SourceUpdateRow → PeriodOutcome) (now : Nat) (db : SenechalDB)
    (p : SourceUpdateRow) (ws : List SummaryWrite)
    (hp : p ∈ pendingUpdates src db)
    (hfail : outcome p = .failure ws)
    (huniq : ∀ q ∈ pendingUpdates src db, q.period_type = p.period_type →
      q.period_start = p.period_start → q = p) :
    processPendingUpdates src outcome now db =
      runEffective src outcome now
        ((pendingUpdates src db).filter fun q => (outcome q).isSuccess) db
    ∧ p ∈ (processPendingUpdates src outcome now db).source_updates
    ∧ p.needs_update = true := by
  have hrun : processPendingUpdates src outcome now db =
      runEffective src outcome now (pendingUpdates src db) db := by
    unfold processPendingUpdates
    rw [runPending_eq_runEffective]
  obtain ⟨hmem, hsrc, hdirty⟩ := mem_pendingUpdates src db p hp
  have hkeys : ∀ q ∈ pendingUpdates src db, (outcome q).isSuccess = true →
      sameUpdateKey src q.period_type q.period_start p = false := by
    intro q hq hsucc
    cases hkey : sameUpdateKey src q.period_type q.period_start p with
    | false => rfl
    | true =>
        exfalso
        unfold sameUpdateKey at hkey
        have h1 := (Bool.and_eq_true _ _).mp hkey
        have h2 := (Bool.and_eq_true _ _).mp h1.1
        have hqp : q = p :=
          huniq q hq (beq_iff_eq.mp h2.2).symm (beq_iff_eq.mp h1.2).symm
        rw [hqp, hfail] at hsucc
        exact Bool.false_ne_true hsucc
  refine ⟨hrun.trans (runEffective_filter_success src outcome now _ db), ?_, hdirty⟩
  rw [hrun]
  exact mem_runEffective_source_updates src outcome now p (pendingUpdates src db) db hmem hkeys

/-- **C2** counterexample — a malformed encoded value is *not* left dirty:
the Garmin adapter's decode error is caught inside `_get_summary_metrics`
(garmin.py:338-342), the column is skipped, no exception reaches the loop,
and the period is processed and marked clean.  Concretely: a dirty
garmin day period whose vendor row carries `sleep_avg = "bad:xx"` ends the
run with `needs_update = false` on every row of `source_updates`. -/
theorem c2_malformed_value_period_marked_clean :
    decodeTime? "bad:xx" = none
    ∧ getSummaryMetrics
        [("day", .text "2024-03-15"), ("sleep_avg", .text "bad:xx"), ("hr_avg", .int 62)] "day"
        = [("hr", ⟨.int 62, .null, .null, 1⟩)]
    ∧ ∀ r ∈ (processPendingUpdates "garmin"
          (fun _ => .success (garminWritesOf (getSummaryMetrics
            [("day", .text "2024-03-15"), ("sleep_avg", .text "bad:xx"), ("hr_avg", .int 62)]
            "day")))
          1
          ⟨[⟨"garmin", "day", mkDate 2024 3 15, ⟨2024, 3, 15, 23, 59, 59, 999999⟩,
             some 0, true, none⟩], [], none⟩).source_updates,
        r.needs_update = false := by
  decide

/-- Witness for C2 at a concrete two-period run: the first period fails
mid-batch, the second succeeds, and the failed period's row survives the
run. -/
theorem c2_exception_leaves_period_dirty_witness :
    (⟨"withings", "day", mkDate 2024 3 15, mkDate 2024 3 16, some 0, true, none⟩ :
        SourceUpdateRow) ∈
      (processPendingUpdates "withings"
        (fun q => if q.period_start == mkDate 2024 3 15 then
            .failure [⟨"weight", .real 80, .real 79, .real 81, 2⟩]
          else .success [⟨"hr", .real 60, .real 58, .real 63, 3⟩])
        5
        ⟨[⟨"withings", "day", mkDate 2024 3 15, mkDate 2024 3 16, some 0, true, none⟩,
          ⟨"withings", "day", mkDate 2024 3 16, mkDate 2024 3 17, some 0, true, none⟩],
         [], none⟩).source_updates :=
  (c2_exception_leaves_period_dirty "withings"
    (fun q => if q.period_start == mkDate 2024 3 15 then
        .failure [⟨"weight", .real 80, .real 79, .real 81, 2⟩]
      else .success [⟨"hr", .real 60, .real 58, .real 63, 3⟩])
    5
    ⟨[⟨"withings", "day", mkDate 2024 3 15, mkDate 2024 3 16, some 0, true, none⟩,
      ⟨"withings", "day", mkDate 2024 3 16, mkDate 2024 3 17, some 0, true, none⟩],
     [], none⟩
    ⟨"withings", "day", mkDate 2024 3 15, mkDate 2024 3 16, some 0, true, none⟩
    [⟨"weight", .real 80, .real 79, .real 81, 2⟩]
    (by decide) (by decide) (by decide)).2.1

/-- **C3** — summary writes are atomic per period: when the adapter raises
mid-batch on a period (after any prefix of that period's upserts reached
the open transaction), the canonical store's slice for that period is
unchanged by the whole run, and the run still equals the run of the
successful periods (the rest of the run list is attempted). -/
theorem c3_summary_writes_atomic_per_period (src : String)
    (outcome : SourceUpdateRow → PeriodOutcome) (now : Nat) (db : SenechalDB)
    (p : SourceUpdateRow) (ws : List SummaryWrite)
    (hp : p ∈ pendingUpdates src db)
    (hfail : outcome p = .failure ws)
    (huniq : ∀ q ∈ pendingUpdates src db, q.period_type = p.period_type →
      q.period_start = p.period_start → q = p) :
    ((processPendingUpdates src outcome now db).summaries).filter
        (fun r2 => r2.period_type == p.period_type && r2.period_start == p.period_start)
      = db.summaries.filter
        (fun r2 => r2.period_type == p.period_type && r2.period_start == p.period_start)
    ∧ processPendingUpdates src outcome now db =
        runEffective src outcome now
          ((pendingUpdates src db).filter fun q => (outcome q).isSuccess) db := by
  have hrun : processPendingUpdates src outcome now db =
      runEffective src outcome now (pendingUpdates src db) db := by
    unfold processPendingUpdates
    rw [runPending_eq_runEffective]
  have hkeys : ∀ q ∈ pendingUpdates src db, (outcome q).isSuccess = true →
      q.period_type ≠ p.period_type ∨ q.period_start ≠ p.period_start := by
    intro q hq hsucc
    by_cases hpt : q.period_type = p.period_type
    · by_cases hps : q.period_start = p.period_start
      · exfalso
        have hqp : q = p := huniq q hq hpt hps
        rw [hqp, hfail] at hsucc
        exact Bool.false_ne_true hsucc
      · exact Or.inr hps
    · exact Or.inl hpt
  refine ⟨?_, hrun.trans (runEffective_filter_success src outcome now _ db)⟩
  rw [hrun]
  exact filter_runEffective_ne src outcome now p.period_type p.period_start
    (pendingUpdates src db) db hkeys

/-- Witness for C3: the failing first period's prior writes are rolled
back — the summaries slice for its key after the concrete two-period run
equals the (empty) slice before it. -/
theorem c3_summary_writes_atomic_per_period_witness :
    ((processPendingUpdates "withings"
        (fun q => if q.period_start == mkDate 2024 3 15 then
            .failure [⟨"weight", .real 80, .real 79, .real 81, 2⟩,
                      ⟨"fat_mass", .real 20, .real 19, .real 21, 2⟩]
          else .success [⟨"hr", .real 60, .real 58, .real 63, 3⟩])
        5
        ⟨[⟨"withings", "day", mkDate 2024 3 15, mkDate 2024 3 16, some 0, true, none⟩,
          ⟨"withings", "day", mkDate 2024 3 16, mkDate 2024 3 17, some 0, true, none⟩],
         [], none⟩).summaries).filter
        (fun r2 => r2.period_type == "day" && r2.period_start == mkDate 2024 3 15)
      = [] :=
  (c3_summary_writes_atomic_per_period "withings"
    (fun q => if q.period_start == mkDate 2024 3 15 then
        .failure [⟨"weight", .real 80, .real 79, .real 81, 2⟩,
                  ⟨"fat_mass", .real 20, .real 19, .real 21, 2⟩]
      else .success [⟨"hr", .real 60, .real 58, .real 63, 3⟩])
    5
    ⟨[⟨"withings", "day", mkDate 2024 3 15, mkDate 2024 3 16, some 0, true, none⟩,
      ⟨"withings", "day", mkDate 2024 3 16, mkDate 2024 3 17, some 0, true, none⟩],
     [], none⟩
    ⟨"withings", "day", mkDate 2024 3 15, mkDate 2024 3 16, some 0, true, none⟩
    [⟨"weight", .real 80, .real 79, .real 81, 2⟩,
     ⟨"fat_mass", .real 20, .real 19, .real 21, 2⟩]
    (by decide) (by decide) (by decide)).1

/-! ### Incremental-cursor lemmas -/

theorem le_foldl_max (l : List Nat) : ∀ b : Nat, b ≤ l.foldl max b := by
  induction l with
  | nil => intro b; exact Nat.le_refl b
  | cons x xs ih =>
      intro b
      exact Nat.le_trans (Nat.le_max_left b x) (ih (max b x))

theorem mem_le_foldl_max (l : List Nat) (x : Nat) (hx : x ∈ l) :
    ∀ b : Nat, x ≤ l.foldl max b := by
  induction l with
  | nil => cases hx
  | cons y ys ih =>
      intro b
      rcases List.mem_cons.mp hx with rfl | hmem
      · exact Nat.le_trans (Nat.le_max_right b x) (le_foldl_max ys (max b x))
      · exact ih hmem (max b y)

/-- A fetched measurement is a raw row strictly beyond the cursor. -/
theorem mem_getNewMeasurements (raw : List WMeasurement) (last_uid : Nat)
    (m : WMeasurement) :
    m ∈ getNewMeasurements raw last_uid ↔ m ∈ raw ∧ last_uid < m.withings_id := by
  unfold getNewMeasurements
  rw [List.mem_insertionSort, List.mem_filter]
  exact and_congr_right fun _ => by simp

/-- Every fetched measurement's id is bounded by the batch maximum. -/
theorem le_maxUid_of_mem (ms : List WMeasurement) (m : WMeasurement) (hm : m ∈ ms) :
    m.withings_id ≤ maxUid ms := by
  unfold maxUid
  exact mem_le_foldl_max _ m.withings_id (List.mem_map_of_mem _ hm) 0

/-- A nonempty fetched batch has maximum id strictly beyond the cursor. -/
theorem lt_maxUid_getNewMeasurements (raw : List WMeasurement) (last_uid : Nat)
    (h : getNewMeasurements raw last_uid ≠ []) :
    last_uid < maxUid (getNewMeasurements raw last_uid) := by
  rcases List.exists_mem_of_ne_nil _ h with ⟨m, hm⟩
  have hlt := ((mem_getNewMeasurements raw last_uid m).mp hm).2
  exact Nat.lt_of_lt_of_le hlt (le_maxUid_of_mem _ m hm)

/-- Dirty-marking does not touch the sync cursor. -/
theorem sync_markPeriodsForUpdate (src : String)
    (periods : List (String × PyDateTime × PyDateTime)) (now : Nat) (dry : Bool)
    (db : SenechalDB) :
    (markPeriodsForUpdate src periods now dry db).sync_last_uid = db.sync_last_uid := by
  unfold markPeriodsForUpdate
  split <;> rfl

theorem sync_effectiveStep (src : String) (now : Nat) (db : SenechalDB)
    (p : SourceUpdateRow) (oc : PeriodOutcome) :
    (effectiveStep src now db p oc).sync_last_uid = db.sync_last_uid := by
  cases oc <;> rfl

theorem sync_runEffective (src : String) (o : SourceUpdateRow → PeriodOutcome) (now : Nat) :
    ∀ (pending : List SourceUpdateRow) (db : SenechalDB),
      (runEffective src o now pending db).sync_last_uid = db.sync_last_uid := by
  intro pending
  induction pending with
  | nil => intro db; rfl
  | cons p rest ih =>
      intro db
      show (runEffective src o now rest (effectiveStep src now db p (o p))).sync_last_uid = _
      rw [ih, sync_effectiveStep]

/-- The orchestration loop does not touch the sync cursor. -/
theorem sync_processPendingUpdates (src : String) (o : SourceUpdateRow → PeriodOutcome)
    (now : Nat) (db : SenechalDB) :
    (processPendingUpdates src o now db).sync_last_uid = db.sync_last_uid := by
  unfold processPendingUpdates
  rw [runPending_eq_runEffective]
  exact sync_runEffective src o now _ db

/-- The cursor after one `process_new_measurements` run: unchanged when
the batch is empty or the run is dry, otherwise the batch maximum. -/
theorem processNewMeasurements_sync (raw : List WMeasurement)
    (outcome : SourceUpdateRow → PeriodOutcome) (now : Nat) (dry : Bool)
    (db : SenechalDB) :
    (processNewMeasurements raw outcome now dry db).sync_last_uid =
      if (getNewMeasurements raw (getLastProcessedUid db)).isEmpty then db.sync_last_uid
      else if dry then db.sync_last_uid
      else some (maxUid (getNewMeasurements raw (getLastProcessedUid db))) := by
  unfold processNewMeasurements
  cases hne : (getNewMeasurements raw (getLastProcessedUid db)).isEmpty with
  | true => simp [hne]
  | false =>
      simp only [hne, Bool.false_eq_true, if_false]
      cases dry with
      | true =>
          simp only [if_true, setLastProcessedUid]
          exact sync_markPeriodsForUpdate _ _ _ _ _
      | false =>
          simp [setLastProcessedUid]

/-- An empty batch leaves the whole database untouched. -/
theorem processNewMeasurements_empty (raw : List WMeasurement)
    (outcome : SourceUpdateRow → PeriodOutcome) (now : Nat) (dry : Bool)
    (db : SenechalDB)
    (h : getNewMeasurements raw (getLastProcessedUid db) = []) :
    processNewMeasurements raw outcome now dry db = db := by
  unfold processNewMeasurements
  simp [h]

/-- The cursor never decreases over one run. -/
theorem cursor_mono (raw : List WMeasurement)
    (outcome : SourceUpdateRow → PeriodOutcome) (now : Nat) (dry : Bool)
    (db : SenechalDB) :
    getLastProcessedUid db ≤
      getLastProcessedUid (processNewMeasurements raw outcome now dry db) := by
  unfold getLastProcessedUid
  rw [processNewMeasurements_sync]
  cases hne : (getNewMeasurements raw (getLastProcessedUid db)).isEmpty with
  | true => simp
  | false =>
      cases dry with
      | true => simp
      | false =>
          simp only [Bool.false_eq_true, if_false, Option.getD_some]
          have hnil : getNewMeasurements raw (getLastProcessedUid db) ≠ [] := by
            intro hcon
            rw [hcon] at hne
            simp at hne
          exact Nat.le_of_lt (lt_maxUid_getNewMeasurements raw _ hnil)

/-- **C5** — the per-source incremental cursor is non-decreasing: one run
never lowers it, a dry run leaves the stored value untouched, a run with
zero new records leaves the database untouched, a real run over a
nonempty batch sets the cursor to the batch's maximum id, strictly above
the previous value — and over any sequence of runs the cursor is
non-decreasing. -/
theorem c5_cursor_non_decreasing (raw : List WMeasurement)
    (outcome : SourceUpdateRow → PeriodOutcome) (now : Nat) (dry : Bool)
    (db : SenechalDB) :
    getLastProcessedUid db ≤
      getLastProcessedUid (processNewMeasurements raw outcome now dry db)
    ∧ (dry = true →
        (processNewMeasurements raw outcome now dry db).sync_last_uid = db.sync_last_uid)
    ∧ (getNewMeasurements raw (getLastProcessedUid db) = [] →
        processNewMeasurements raw outcome now dry db = db)
    ∧ (dry = false → getNewMeasurements raw (getLastProcessedUid db) ≠ [] →
        (processNewMeasurements raw outcome now dry db).sync_last_uid
            = some (maxUid (getNewMeasurements raw (getLastProcessedUid db)))
          ∧ getLastProcessedUid db < maxUid (getNewMeasurements raw (getLastProcessedUid db)))
    ∧ ∀ runs : List (List WMeasurement × Bool),
        getLastProcessedUid db ≤
          getLastProcessedUid (runs.foldl
            (fun d pr => processNewMeasurements pr.1 outcome now pr.2 d) db) := by
  refine ⟨cursor_mono raw outcome now dry db, ?_, ?_, ?_, ?_⟩
  · intro hdry
    rw [processNewMeasurements_sync, hdry]
    cases (getNewMeasurements raw (getLastProcessedUid db)).isEmpty <;> simp
  · exact processNewMeasurements_empty raw outcome now dry db
  · intro hdry hne
    have hempty : (getNewMeasurements raw (getLastProcessedUid db)).isEmpty = false := by
      cases hh : (getNewMeasurements raw (getLastProcessedUid db)).isEmpty with
      | false => rfl
      | true => exact absurd (List.isEmpty_iff.mp hh) hne
    rw [processNewMeasurements_sync, hdry, hempty]
    exact ⟨by simp, lt_maxUid_getNewMeasurements raw _ hne⟩
  · intro runs
    induction runs generalizing db with
    | nil => exact Nat.le_refl _
    | cons pr rest ih =>
        exact Nat.le_trans (cursor_mono pr.1 outcome now pr.2 db) (ih _)

/-- Witness for C5 at a concrete batch of two measurements. -/
theorem c5_cursor_non_decreasing_witness :
    getLastProcessedUid (⟨[], [], some 3⟩ : SenechalDB) ≤
      getLastProcessedUid (processNewMeasurements
        [⟨7, .text "2024-03-15T08:00:00", 1, 80⟩, ⟨2, .text "2024-03-14T08:00:00", 1, 81⟩]
        (fun _ => .success []) 1 false ⟨[], [], some 3⟩) :=
  (c5_cursor_non_decreasing
    [⟨7, .text "2024-03-15T08:00:00", 1, 80⟩, ⟨2, .text "2024-03-14T08:00:00", 1, 81⟩]
    (fun _ => .success []) 1 false ⟨[], [], some 3⟩).1

/-! ### Raw-aggregation emission lemmas -/

theorem restingHrStats_avg (rows : List RestingHrRow) (s e : Nat) :
    (restingHrStats rows s e).avg =
      sqlAvg ((rows.filter fun r => s ≤ r.day && r.day < e).map (·.resting_heart_rate)) := rfl

theorem restingHrStats_cnt (rows : List RestingHrRow) (s e : Nat) :
    (restingHrStats rows s e).cnt = (rows.filter fun r => s ≤ r.day && r.day < e).length := rfl

/-- **C6** counterexample — a period with exactly one resting-heart-rate
sample whose value is 0 has `COUNT(*) = 1` (at least one sample), yet the
Python truthiness test `if rhr_stats and rhr_stats["avg_rhr"]:` sees the
average `0.0` as falsy and `_get_heart_metrics` emits nothing: "emitted iff
at least one sample" fails. -/
theorem c6_zero_average_sample_not_emitted :
    (restingHrStats [⟨5, some 0⟩] 0 10).cnt = 1
    ∧ getHeartMetrics [⟨5, some 0⟩] [] 0 10 = [] := by
  have h1 : (restingHrStats [⟨5, some 0⟩] 0 10).avg = some 0 := by
    rw [restingHrStats_avg]
    norm_num [sqlAvg]
    exact ⟨by simp, Or.inl (by simp)⟩
  have h2 : (monitoringHrStats ([] : List MonitoringHrRow) 0 10).avg = none := rfl
  refine ⟨rfl, ?_⟩
  simp only [getHeartMetrics, h1, h2, cellTruthy]
  norm_num

/-- A summary upsert adds exactly its own metric id to the ids present. -/
theorem mem_metric_upsertSummary (pt : String) (ps pe : PyDateTime) (mid2 : String)
    (avg mn mx : SqlVal) (cnt : Int) (now : Nat) (tbl : List SummaryRow) (mid : String) :
    (∃ r2 ∈ upsertSummary pt ps pe mid2 avg mn mx cnt now tbl, r2.metric_id = mid) ↔
      ((∃ r2 ∈ tbl, r2.metric_id = mid) ∨ mid2 = mid) := by
  unfold upsertSummary
  cases h : tbl.any (sameSummaryKey pt ps mid2) with
  | true =>
      simp only [h, if_true]
      constructor
      · rintro ⟨r2, hr2, hmid⟩
        rcases List.mem_map.mp hr2 with ⟨x, hx, hfx⟩
        refine Or.inl ⟨x, hx, ?_⟩
        by_cases hxk : sameSummaryKey pt ps mid2 x
        · rw [if_pos hxk] at hfx
          rw [← hfx] at hmid
          exact hmid
        · rw [if_neg hxk] at hfx
          rw [← hfx] at hmid
          exact hmid
      · rintro (⟨r2, hr2, hmid⟩ | hmid)
        · refine ⟨_, List.mem_map_of_mem _ hr2, ?_⟩
          by_cases hxk : sameSummaryKey pt ps mid2 r2
          · rw [if_pos hxk]
            exact hmid
          · rw [if_neg hxk]
            exact hmid
        · rcases List.any_eq_true.mp h with ⟨x, hx, hxk⟩
          refine ⟨_, List.mem_map_of_mem _ hx, ?_⟩
          have hxm : x.metric_id = mid2 := by
            unfold sameSummaryKey at hxk
            exact beq_iff_eq.mp ((Bool.and_eq_true _ _).mp hxk).2
          by_cases hxk2 : sameSummaryKey pt ps mid2 x
          · rw [if_pos hxk2]
            show x.metric_id = mid
            rw [hxm, hmid]
          · rw [if_neg hxk2]
            rw [hxm, hmid]
  | false =>
      simp only [h, Bool.false_eq_true, if_false]
      constructor
      · rintro ⟨r2, hr2, hmid⟩
        rcases List.mem_append.mp hr2 with h1 | h2
        · exact Or.inl ⟨r2, h1, hmid⟩
        · rcases List.mem_singleton.mp h2 with rfl
          exact Or.inr hmid
      · rintro (⟨r2, hr2, hmid⟩ | hmid)
        · exact ⟨r2, List.mem_append_left _ hr2, hmid⟩
        · exact ⟨⟨pt, ps, pe, mid2, avg, mn, mx, cnt, now⟩,
            List.mem_append_right _ (List.mem_singleton_self _), hmid⟩

/-- The metric ids present after the Withings per-type fold are the
initial ids plus the mapped types of the groups. -/
theorem mem_metric_types_fold (pt : String) (ps pe : PyDateTime) (now : Nat)
    (mid : String) (g : Int → ℚ × ℚ × ℚ × Nat) :
    ∀ (types : List Int) (tbl : List SummaryRow),
      (∃ r2 ∈ types.foldl (fun tbl t =>
          match withingsMetricMap t with
          | none => tbl
          | some mid2 =>
              let a := g t
              upsertSummary pt ps pe mid2 (.real a.1) (.real a.2.1) (.real a.2.2.1)
                (a.2.2.2 : Int) now tbl) tbl, r2.metric_id = mid)
        ↔ ((∃ r2 ∈ tbl, r2.metric_id = mid) ∨ ∃ t ∈ types, withingsMetricMap t = some mid) := by
  intro types
  induction types with
  | nil => intro tbl; simp
  | cons t rest ih =>
      intro tbl
      rw [List.foldl_cons]
      cases hmap : withingsMetricMap t with
      | none =>
          refine Iff.trans (by exact ih tbl) ?_
          constructor
          · rintro (he | ⟨t2, ht2, hm2⟩)
            · exact Or.inl he
            · exact Or.inr ⟨t2, List.mem_cons_of_mem _ ht2, hm2⟩
          · rintro (he | ⟨t2, ht2, hm2⟩)
            · exact Or.inl he
            · rcases List.mem_cons.mp ht2 with rfl | ht2r
              · rw [hmap] at hm2
                cases hm2
              · exact Or.inr ⟨t2, ht2r, hm2⟩
      | some mid2 =>
          refine Iff.trans (by exact ih (upsertSummary pt ps pe mid2 (.real (g t).1)
            (.real (g t).2.1) (.real (g t).2.2.1) ((g t).2.2.2 : Int) now tbl)) ?_
          rw [mem_metric_upsertSummary]
          constructor
          · rintro ((he | hm2) | ⟨t2, ht2, hmm⟩)
            · exact Or.inl he
            · exact Or.inr ⟨t, List.mem_cons_self _ _, by rw [hmap, hm2]⟩
            · exact Or.inr ⟨t2, List.mem_cons_of_mem _ ht2, hmm⟩
          · rintro (he | ⟨t2, ht2, hmm⟩)
            · exact Or.inl (Or.inl he)
            · rcases List.mem_cons.mp ht2 with rfl | ht2r
              · rw [hmap] at hmm
                exact Or.inl (Or.inr (Option.some_injective _ hmm))
              · exact Or.inr ⟨t2, ht2r, hmm⟩

/-- **C6** (amended) — in the raw-aggregation fallback a summary record is
emitted iff the aggregation result passes Python truthiness, not iff a
sample exists: in the Garmin heart path an entry appears iff the bounded
average over [start, end) is non-NULL *and nonzero* (so a truthy average
implies at least one sample, but not conversely); in the Withings path a
metric row is written iff some sample of a vendor type mapping to that
metric lies in [start, end); a metric family with zero qualifying samples
(NULL average) is skipped, never written as zero. -/
theorem c6_raw_emission_truthiness (resting : List RestingHrRow)
    (monitoring : List MonitoringHrRow) (s e : Nat)
    (rows : List WMeasurement) (ptype : String) (sD eD : PyDateTime) (now : Nat)
    (mid : String) :
    ((∃ p ∈ getHeartMetrics resting monitoring s e, p.1 = "rhr") ↔
      cellTruthy (restingHrStats resting s e).avg = true)
    ∧ ((∃ p ∈ getHeartMetrics resting monitoring s e, p.1 = "hr") ↔
      cellTruthy (monitoringHrStats monitoring s e).avg = true)
    ∧ (cellTruthy (restingHrStats resting s e).avg = true →
        1 ≤ (restingHrStats resting s e).cnt)
    ∧ ((∃ r2 ∈ (processPeriodWithings rows ptype sD eD now emptyDB).summaries,
          r2.metric_id = mid) ↔
        ∃ m ∈ rows, wdateInRange m.date sD eD = true ∧ withingsMetricMap m.type = some mid) := by
  refine ⟨?_, ?_, ?_, ?_⟩
  · cases h1 : cellTruthy (restingHrStats resting s e).avg <;>
      cases h2 : cellTruthy (monitoringHrStats monitoring s e).avg <;>
      simp [getHeartMetrics, h1, h2]
  · cases h1 : cellTruthy (restingHrStats resting s e).avg <;>
      cases h2 : cellTruthy (monitoringHrStats monitoring s e).avg <;>
      simp [getHeartMetrics, h1, h2]
  · intro htr
    rw [restingHrStats_cnt]
    cases hR : resting.filter (fun r => s ≤ r.day && r.day < e) with
    | nil =>
        exfalso
        rw [restingHrStats_avg, hR] at htr
        simp [sqlAvg, cellTruthy] at htr
    | cons x xs => simp
  · have hfold := mem_metric_types_fold ptype sD eD now mid
      (fun t => aggValues (((rows.filter fun m => wdateInRange m.date sD eD).filter
        fun m => m.type == t).map (·.value)))
      (((rows.filter fun m => wdateInRange m.date sD eD).map (·.type)).dedup) []
    refine Iff.trans (by exact hfold) ?_
    constructor
    · rintro (⟨r2, hr2, _⟩ | ⟨t, ht, hmap⟩)
      · cases hr2
      · rcases List.mem_map.mp (List.mem_dedup.mp ht) with ⟨m, hm, rfl⟩
        have hmf := List.mem_filter.mp hm
        exact ⟨m, hmf.1, hmf.2, hmap⟩
    · rintro ⟨m, hm, hrange, hmap⟩
      exact Or.inr ⟨m.type,
        List.mem_dedup.mpr (List.mem_map_of_mem _ (List.mem_filter.mpr ⟨hm, hrange⟩)),
        hmap⟩

/-- Witness for C6 at a concrete nonzero sample: one resting sample of 60
in range produces the `"rhr"` entry. -/
theorem c6_raw_emission_truthiness_witness :
    ∃ p ∈ getHeartMetrics [⟨5, some 60⟩] [] 0 10, p.1 = "rhr" :=
  ((c6_raw_emission_truthiness [⟨5, some 60⟩] [] 0 10 [] "day"
      (mkDate 2024 3 15) (mkDate 2024 3 16) 1 "hr").1).mpr
    (by
      have h60 : (restingHrStats [⟨5, some 60⟩] 0 10).avg = some 60 := by
        rw [restingHrStats_avg]
        norm_num [sqlAvg]
        exact ⟨by simp, by simp⟩
      rw [h60]
      norm_num [cellTruthy])

/-! ### Vendor-summary translation lemmas -/

/-- Removing a column a sibling lookup never targets does not change the
lookup result. -/
theorem rowLookup_filter_ne (c x : String) (hx : ¬ x = c) :
    ∀ row : VendorRow,
      rowLookup (row.filter fun p => !(p.1 == c)) x = rowLookup row x := by
  intro row
  induction row with
  | nil => rfl
  | cons a rest ih =>
      rw [List.filter_cons]
      cases hac : (a.1 == c) with
      | true =>
          have hax : (a.1 == x) = false := by
            refine beq_eq_false_iff_ne.mpr ?_
            intro h
            exact hx (by rw [← h, beq_iff_eq.mp hac])
          simp only [hac, Bool.not_true, Bool.false_eq_true, if_false]
          rw [ih]
          unfold rowLookup
          rw [List.find?_cons, hax]
      | false =>
          simp only [hac, Bool.not_false, if_true]
          unfold rowLookup at ih ⊢
          rw [List.find?_cons, List.find?_cons]
          cases hax : (a.1 == x) with
          | true => rfl
          | false => exact ih

/-- Removing such a column does not change column presence either. -/
theorem hasColumn_filter_ne (c x : String) (hx : ¬ x = c) :
    ∀ row : VendorRow,
      hasColumn (row.filter fun p => !(p.1 == c)) x = hasColumn row x := by
  intro row
  induction row with
  | nil => rfl
  | cons a rest ih =>
      rw [List.filter_cons]
      cases hac : (a.1 == c) with
      | true =>
          have haceq : a.1 = c := beq_iff_eq.mp hac
          have hax : (a.1 == x) = false := by
            refine beq_eq_false_iff_ne.mpr ?_
            intro h
            exact hx (by rw [← h, haceq])
          simp only [hac, Bool.not_true, Bool.false_eq_true, if_false]
          rw [ih]
          unfold hasColumn
          rw [List.any_cons, hax]
          simp
      | false =>
          simp only [hac, Bool.not_false, if_true]
          unfold hasColumn
          rw [List.any_cons, List.any_cons]
          unfold hasColumn at ih
          rw [ih]

/-- A sibling branch of `addSiblings` is insensitive to removing a column
that is not in the metric map (the branch requires its own column to be
mapped). -/
theorem sibling_branch_eq (c : String) (hc : garminMetricMap c = none) (row : VendorRow)
    (name : String) (f : SqlVal → MetricVal) (e : MetricVal) :
    (if hasColumn (row.filter fun p => !(p.1 == c)) name && (garminMetricMap name).isSome then
      match rowLookup (row.filter fun p => !(p.1 == c)) name with
      | some v => if v != SqlVal.null then f v else e
      | none => e
    else e)
    = (if hasColumn row name && (garminMetricMap name).isSome then
      match rowLookup row name with
      | some v => if v != SqlVal.null then f v else e
      | none => e
    else e) := by
  cases hsome : (garminMetricMap name).isSome with
  | false => simp [hsome]
  | true =>
      have hne : ¬ name = c := by
        intro h
        rw [h, hc] at hsome
        cases hsome
      rw [hasColumn_filter_ne c name hne row, rowLookup_filter_ne c name hne row]

/-- `addSiblings` is insensitive to removing an unmapped column. -/
theorem addSiblings_filter_ne (c : String) (hc : garminMetricMap c = none)
    (row : VendorRow) (col : String) (e : MetricVal) :
    addSiblings (row.filter fun p => !(p.1 == c)) col e = addSiblings row col e := by
  unfold addSiblings
  cases hav : pyEndsWith col "_avg" with
  | false => simp [hav]
  | true =>
      simp only [hav, if_true]
      rw [sibling_branch_eq c hc row (pyDropRight col 4 ++ "_min")
        (fun v => { e with mn := v }) e]
      rw [sibling_branch_eq c hc row (pyDropRight col 4 ++ "_max") _ _]

/-- One column-loop step is insensitive to removing an unmapped column
from the row used for sibling lookups. -/
theorem stepColumn_filter_ne (c : String) (hc : garminMetricMap c = none)
    (row : VendorRow) (df : String) (acc : List (String × MetricVal))
    (cv : String × SqlVal) :
    stepColumn (row.filter fun p => !(p.1 == c)) df acc cv = stepColumn row df acc cv := by
  unfold stepColumn
  simp only [addSiblings_filter_ne c hc row]

/-- Folding the column loop skips removed unmapped columns anyway. -/
theorem foldl_stepColumn_filter (row0 : VendorRow) (df : String) (c : String)
    (hc : garminMetricMap c = none) :
    ∀ (l : VendorRow) (acc : List (String × MetricVal)),
      l.foldl (stepColumn row0 df) acc =
        (l.filter fun p => !(p.1 == c)).foldl (stepColumn row0 df) acc := by
  intro l
  induction l with
  | nil => intro acc; rfl
  | cons a rest ih =>
      intro acc
      rw [List.foldl_cons, List.filter_cons]
      cases hac : (a.1 == c) with
      | false =>
          simp only [hac, Bool.not_false, if_true]
          rw [List.foldl_cons]
          exact ih _
      | true =>
          simp only [hac, Bool.not_true, Bool.false_eq_true, if_false]
          have hstep : stepColumn row0 df acc a = acc := by
            unfold stepColumn
            cases hdf : (a.1 == df) with
            | true => rfl
            | false =>
                have hnone : garminMetricMap a.1 = none := by
                  rw [beq_iff_eq.mp hac]
                  exact hc
                rw [hnone]
                rfl
          rw [hstep]
          exact ih acc

/-- **C7** — a vendor column whose identifier is not in `GARMIN_METRIC_MAP`
contributes nothing: deleting all its occurrences from the fetched row
leaves `_get_summary_metrics` unchanged (and the function is total, so no
error is raised); and the claim's example row with `hr_avg = 62` and an
unmapped extra column translates to exactly the metric `"hr"` with avg 62
and count 1, which `_save_metrics` writes as the single summary row
`(day, start, "hr", avg=62, count=1)`. -/
theorem c7_unmapped_columns_ignored (row : VendorRow) (df c : String)
    (hc : garminMetricMap c = none) (pstart pend : PyDateTime) (now : Nat) :
    getSummaryMetrics (row.filter fun p => !(p.1 == c)) df = getSummaryMetrics row df
    ∧ getSummaryMetrics
        [("day", .text "2024-03-15"), ("hr_avg", .int 62), ("training_load", .int 99)] "day"
        = [("hr", ⟨.int 62, .null, .null, 1⟩)]
    ∧ (saveMetrics "day" pstart pend now
        (getSummaryMetrics
          [("day", .text "2024-03-15"), ("hr_avg", .int 62), ("training_load", .int 99)] "day")
        emptyDB).summaries
        = [⟨"day", pstart, pend, "hr", .int 62, .null, .null, 1, now⟩] := by
  refine ⟨?_, by decide, rfl⟩
  unfold getSummaryMetrics
  have hstep : stepColumn (row.filter fun p => !(p.1 == c)) df = stepColumn row df :=
    funext fun acc => funext fun cv => stepColumn_filter_ne c hc row df acc cv
  rw [hstep]
  exact (foldl_stepColumn_filter row df c hc row []).symm

/-- Witness for C7: removing the concrete unmapped column
`"training_load"` leaves the translated metrics unchanged. -/
theorem c7_unmapped_columns_ignored_witness :
    getSummaryMetrics
      ([("day", .text "2024-03-15"), ("hr_avg", .int 62), ("training_load", .int 99)].filter
        fun p => !(p.1 == "training_load")) "day"
      = getSummaryMetrics
        [("day", .text "2024-03-15"), ("hr_avg", .int 62), ("training_load", .int 99)] "day" :=
  (c7_unmapped_columns_ignored
    [("day", .text "2024-03-15"), ("hr_avg", .int 62), ("training_load", .int 99)]
    "day" "training_load" (by decide) (mkDate 2024 3 15) (mkDate 2024 3 16) 1).1

/-- **C8** — in the vendor-summary path: (1) the `"HH:MM"` decoder is
`int(hours) * 60 + int(minutes)` over the first two `":"`-separated
fields; (2) a mapped text column containing `":"` whose decode succeeds
yields an entry with the integer minute count as its average and count 1
(plus any siblings); (3) a malformed encoded value makes the column-loop
step the identity — the column is skipped, no error is raised; (4) for a
mapped `_avg` column whose `_min`/`_max` siblings exist in the row and in
the map with non-NULL values, those values are propagated as the min/max
of the same entry; (5) a concrete sleep row end to end. -/
theorem c8_time_decoding_and_siblings (row : VendorRow) (df : String)
    (acc : List (String × MetricVal)) (c sm s : String) (n : Int)
    (hrs mins : List Char) (rest2 : List (List Char)) (a b : Int)
    (vmn vmx : SqlVal) (entry : MetricVal) :
    (splitOnChar ':' s.toList = hrs :: mins :: rest2 → pyIntChars? hrs = some a →
      pyIntChars? mins = some b → decodeTime? s = some (a * 60 + b))
    ∧ (garminMetricMap c = some sm → (c == df) = false →
        s.toList.contains ':' = true → decodeTime? s = some n →
        stepColumn row df acc (c, .text s)
          = assocUpsert acc sm (addSiblings row c ⟨.int n, .null, .null, 1⟩))
    ∧ (garminMetricMap c = some sm → (c == df) = false →
        s.toList.contains ':' = true → decodeTime? s = none →
        stepColumn row df acc (c, .text s) = acc)
    ∧ (pyEndsWith c "_avg" = true →
        (garminMetricMap (pyDropRight c 4 ++ "_min")).isSome = true →
        (garminMetricMap (pyDropRight c 4 ++ "_max")).isSome = true →
        rowLookup row (pyDropRight c 4 ++ "_min") = some vmn → vmn ≠ .null →
        rowLookup row (pyDropRight c 4 ++ "_max") = some vmx → vmx ≠ .null →
        addSiblings row c entry = { entry with mn := vmn, mx := vmx })
    ∧ getSummaryMetrics
        [("day", .text "2024-03-15"), ("sleep_avg", .text "07:30"),
         ("sleep_min", .text "06:00"), ("sleep_max", .text "08:15")] "day"
        = [("sleep_total", ⟨.int 450, .text "06:00", .text "08:15", 1⟩),
           ("sleep_min", ⟨.int 360, .null, .null, 1⟩),
           ("sleep_max", ⟨.int 495, .null, .null, 1⟩)] := by
  refine ⟨?_, ?_, ?_, ?_, by decide⟩
  · intro hsplit ha hb
    unfold decodeTime?
    rw [hsplit]
    simp [ha, hb]
  · intro hmap hdf hcolon hdec
    simp [stepColumn, hmap, hdf, hcolon, hdec]
    intro hnot
    exact absurd (show ':' ∈ s.data by simpa using hcolon) hnot
  · intro hmap hdf hcolon hdec
    simp [stepColumn, hmap, hdf, hcolon, hdec]
    intro hnot
    exact absurd (show ':' ∈ s.data by simpa using hcolon) hnot
  · intro hav hmins hmaxs hlmn hnn hlmx hxn
    have hcmn : hasColumn row (pyDropRight c 4 ++ "_min") = true := by
      unfold rowLookup at hlmn
      rcases Option.map_eq_some'.mp hlmn with ⟨pr, hfind, _⟩
      have hfs := List.find?_some hfind
      exact List.any_eq_true.mpr ⟨pr, List.mem_of_find?_eq_some hfind, hfs⟩
    have hcmx : hasColumn row (pyDropRight c 4 ++ "_max") = true := by
      unfold rowLookup at hlmx
      rcases Option.map_eq_some'.mp hlmx with ⟨pr, hfind, _⟩
      have hfs := List.find?_some hfind
      exact List.any_eq_true.mpr ⟨pr, List.mem_of_find?_eq_some hfind, hfs⟩
    have hbn : (vmn != SqlVal.null) = true := bne_iff_ne.mpr hnn
    have hbx : (vmx != SqlVal.null) = true := bne_iff_ne.mpr hxn
    simp [addSiblings, hav, hmins, hmaxs, hcmn, hcmx, hlmn, hlmx, hbn, hbx]

/-- Witness for C8: decoding the sleep row's `"07:30"` average with its
sibling columns. -/
theorem c8_time_decoding_and_siblings_witness :
    stepColumn
      [("day", .text "2024-03-15"), ("sleep_avg", .text "07:30"),
       ("sleep_min", .text "06:00"), ("sleep_max", .text "08:15")] "day" []
      ("sleep_avg", .text "07:30")
      = assocUpsert [] "sleep_total"
          (addSiblings
            [("day", .text "2024-03-15"), ("sleep_avg", .text "07:30"),
             ("sleep_min", .text "06:00"), ("sleep_max", .text "08:15")]
            "sleep_avg" ⟨.int 450, .null, .null, 1⟩) :=
  ((c8_time_decoding_and_siblings
      [("day", .text "2024-03-15"), ("sleep_avg", .text "07:30"),
       ("sleep_min", .text "06:00"), ("sleep_max", .text "08:15")]
      "day" [] "sleep_avg" "sleep_total" "07:30" 450
      [] [] [] 0 0 SqlVal.null SqlVal.null ⟨.null, .null, .null, 0⟩).2.1)
    (by decide) (by decide) (by decide) (by decide)

/-! ### Bad-date measurement handling -/

/-- Elements on which `f` yields nothing can be removed without changing a
`filterMap`. -/
theorem filterMap_filter_ne_of_none {α β : Type} [DecidableEq α] (f : α → Option β)
    (x : α) (hx : f x = none) :
    ∀ l : List α, (l.filter fun y => !(y == x)).filterMap f = l.filterMap f := by
  intro l
  induction l with
  | nil => rfl
  | cons y ys ih =>
      rw [List.filter_cons]
      cases hyx : (y == x) with
      | true =>
          have hfy : f y = none := by
            rw [beq_iff_eq.mp hyx]
            exact hx
          simp only [hyx, Bool.not_true, Bool.false_eq_true, if_false]
          rw [ih, List.filterMap_cons, hfy]
      | false =>
          simp only [hyx, Bool.not_false, if_true]
          rw [List.filterMap_cons, List.filterMap_cons, ih]

/-- **C9** — a fetched measurement whose date fails to parse is logged and
dropped from the date list, but the cursor still advances to the batch's
maximum `withings_id` (computed before parsing): after the run, the marked
dirty periods are those of the remaining parseable dates (the bad
measurement contributes nothing — removing it changes no parsed date), and
the measurement is excluded from every future fetch, so it can never
trigger dirty-period discovery or summaries again. -/
theorem c9_bad_date_measurement_dropped (raw : List WMeasurement)
    (outcome : SourceUpdateRow → PeriodOutcome) (now : Nat) (db : SenechalDB)
    (m : WMeasurement)
    (hm : m ∈ getNewMeasurements raw (getLastProcessedUid db))
    (hbad : parseMeasurementDate m.date = none) :
    (processNewMeasurements raw outcome now false db).sync_last_uid
        = some (maxUid (getNewMeasurements raw (getLastProcessedUid db)))
    ∧ m.withings_id ≤ maxUid (getNewMeasurements raw (getLastProcessedUid db))
    ∧ (getNewMeasurements raw (getLastProcessedUid db)).filterMap
          (fun m2 => parseMeasurementDate m2.date)
        = ((getNewMeasurements raw (getLastProcessedUid db)).filter
            fun m2 => !(m2 == m)).filterMap (fun m2 => parseMeasurementDate m2.date)
    ∧ m ∉ getNewMeasurements raw
        (getLastProcessedUid (processNewMeasurements raw outcome now false db)) := by
  have hne : getNewMeasurements raw (getLastProcessedUid db) ≠ [] :=
    List.ne_nil_of_mem hm
  have hempty : (getNewMeasurements raw (getLastProcessedUid db)).isEmpty = false := by
    cases hh : (getNewMeasurements raw (getLastProcessedUid db)).isEmpty with
    | false => rfl
    | true => exact absurd (List.isEmpty_iff.mp hh) hne
  have hsync : (processNewMeasurements raw outcome now false db).sync_last_uid
      = some (maxUid (getNewMeasurements raw (getLastProcessedUid db))) := by
    rw [processNewMeasurements_sync, hempty]
    simp
  refine ⟨hsync, le_maxUid_of_mem _ m hm,
    (filterMap_filter_ne_of_none _ m hbad _).symm, ?_⟩
  intro hcon
  have hgt := ((mem_getNewMeasurements raw _ m).mp hcon).2
  have hcur : getLastProcessedUid (processNewMeasurements raw outcome now false db)
      = maxUid (getNewMeasurements raw (getLastProcessedUid db)) := by
    unfold getLastProcessedUid
    rw [hsync]
    rfl
  rw [hcur] at hgt
  exact absurd (le_maxUid_of_mem _ m hm) (Nat.not_le_of_lt hgt)

/-- Witness for C9 at a concrete batch: a measurement with an unparseable
date is behind the advanced cursor and never fetched again. -/
theorem c9_bad_date_measurement_dropped_witness :
    (⟨7, .text "not-a-date", 1, (70 : ℚ)⟩ : WMeasurement) ∉
      getNewMeasurements
        [⟨7, .text "not-a-date", 1, (70 : ℚ)⟩, ⟨5, .text "2024-03-15T08:00:00", 1, (71 : ℚ)⟩]
        (getLastProcessedUid (processNewMeasurements
          [⟨7, .text "not-a-date", 1, (70 : ℚ)⟩, ⟨5, .text "2024-03-15T08:00:00", 1, (71 : ℚ)⟩]
          (fun _ => .success []) 1 false emptyDB)) :=
  (c9_bad_date_measurement_dropped
    [⟨7, .text "not-a-date", 1, (70 : ℚ)⟩, ⟨5, .text "2024-03-15T08:00:00", 1, (71 : ℚ)⟩]
    (fun _ => .success []) 1 emptyDB ⟨7, .text "not-a-date", 1, (70 : ℚ)⟩
    (by decide) (by decide)).2.2.2

end Senechal
